import Mathlib

/-!
# Verification of the codebase-navigator analysis pipeline

A shallow embedding, in Lean 4, of the core of the `codebase_navigator`
server: the repository-root resolver and key-document locator
(`src/utils/fileSystem.ts`), the heuristic code analyzer
(`src/utils/codeAnalyzer.ts`), the phase report synthesizer
(`src/utils/reportGenerator.ts`) and the pipeline orchestrator
(`server.ts`).  Pure functions of the source become Lean functions;
filesystem reads and clock reads become explicit oracle parameters;
JavaScript regular expressions are interpreted by a small backtracking
regex engine defined below; thrown exceptions become `Except` values.
-/

/-! ## JavaScript string primitives

Small executable models of the JavaScript string operations the source
uses: `includes`, `startsWith`, `endsWith`, `trim`, `split('\n')`,
`slice`, `toLowerCase`-based comparison, number rendering.
-/

/-- `needle` occurs as a contiguous sublist of `hay`. -/
def listInfixOf [DecidableEq α] (needle hay : List α) : Bool :=
  match hay with
  | [] => needle.isEmpty
  | _ :: tl => needle.isPrefixOf hay || listInfixOf needle tl

/-- `hay.includes(needle)` — substring containment, as in JS `String.prototype.includes`. -/
def jsIncludes (hay needle : String) : Bool :=
  listInfixOf needle.data hay.data

/-- `s.startsWith(p)` — JS `String.prototype.startsWith` (case sensitive). -/
def jsStartsWith (s p : String) : Bool :=
  p.data.isPrefixOf s.data

/-- `s.endsWith(p)` — JS `String.prototype.endsWith` (case sensitive). -/
def jsEndsWith (s p : String) : Bool :=
  p.data.isSuffixOf s.data

/-- The whitespace characters recognised by the JS `\s` class, `trim`
and friends, restricted to the ASCII range (the repository's data only
involves ASCII whitespace). -/
def isJsSpace (c : Char) : Bool :=
  c = ' ' || c = '\t' || c = '\n' || c = '\r' ||
  c = Char.ofNat 11 || c = Char.ofNat 12 || c = Char.ofNat 0xA0

/-- `s.trim()` — strip JS whitespace from both ends. -/
def jsTrim (s : String) : String :=
  ⟨(s.data.dropWhile isJsSpace).reverse.dropWhile isJsSpace |>.reverse⟩

/-- `s.toLowerCase()` for the ASCII strings handled here. -/
def jsToLower (s : String) : String :=
  ⟨s.data.map Char.toLower⟩

/-- `s.split('\n')` — JS split on a newline separator; note that
`"".split('\n')` is `[""]`, which `String.splitOn` also satisfies. -/
def jsSplitNl (s : String) : List String :=
  s.splitOn "\n"

/-- `xs.slice(0, n)` on arrays. -/
def jsSliceTo (n : Nat) (xs : List α) : List α :=
  xs.take n

/-- `xs.slice(-n)` on arrays: the last `n` elements (all of them when
the array is shorter). -/
def jsSliceLast (n : Nat) (xs : List α) : List α :=
  xs.drop (xs.length - n)

/-- Fuelled worker for `countOccs`; the fuel only needs to dominate the
length of the haystack. -/
def countOccsAux (needle : List Char) : Nat → List Char → Nat
  | 0, _ => 0
  | _ + 1, [] => 0
  | n + 1, c :: tl =>
    if needle ≠ [] ∧ needle.isPrefixOf (c :: tl) then
      countOccsAux needle n ((c :: tl).drop needle.length) + 1
    else
      countOccsAux needle n tl

/-- Count the non-overlapping occurrences of a literal `needle` in
`hay`, scanning left to right — the length of a JS global literal
match. -/
def countOccs (hay needle : List Char) : Nat :=
  countOccsAux needle hay.length hay

/-- The number of global matches of the two-character literal pattern
dash-space in `hay` — JS `(hay.match(dash-space regex with g flag) || []).length`. -/
def countDashSpace (hay : String) : Nat :=
  countOccs hay.data "- ".data

/-- Helper for `dedupFirst`: drop the elements already `seen`. -/
def dedupFirstAux [DecidableEq α] (seen : List α) : List α → List α
  | [] => []
  | x :: xs =>
    if x ∈ seen then dedupFirstAux seen xs
    else x :: dedupFirstAux (x :: seen) xs

/-- `[...new Set(xs)]` — de-duplication keeping the first occurrence of
each element, which is the iteration order of a JS `Set`. -/
def dedupFirst [DecidableEq α] (l : List α) : List α :=
  dedupFirstAux [] l

theorem dedupFirstAux_subset [DecidableEq α] (l : List α) :
    ∀ seen : List α, dedupFirstAux seen l ⊆ l := by
  induction l with
  | nil => intro seen; simp [dedupFirstAux]
  | cons x xs ih =>
    intro seen
    by_cases hx : x ∈ seen
    · simp only [dedupFirstAux, if_pos hx]
      exact (ih seen).trans (List.subset_cons_self _ _)
    · simp only [dedupFirstAux, if_neg hx]
      exact List.cons_subset_cons x ((ih (x :: seen)))

theorem dedupFirst_subset [DecidableEq α] (l : List α) : dedupFirst l ⊆ l :=
  dedupFirstAux_subset l []

theorem dedupFirstAux_not_mem_seen [DecidableEq α] (l : List α) :
    ∀ seen : List α, ∀ a ∈ dedupFirstAux seen l, a ∉ seen := by
  induction l with
  | nil => intro seen a ha; simp [dedupFirstAux] at ha
  | cons x xs ih =>
    intro seen a ha
    by_cases hx : x ∈ seen
    · rw [dedupFirstAux, if_pos hx] at ha
      exact ih seen a ha
    · rw [dedupFirstAux, if_neg hx] at ha
      rcases List.mem_cons.mp ha with rfl | h
      · exact hx
      · intro hseen
        exact ih (x :: seen) a h (List.mem_cons_of_mem _ hseen)

theorem dedupFirstAux_nodup [DecidableEq α] (l : List α) :
    ∀ seen : List α, (dedupFirstAux seen l).Nodup := by
  induction l with
  | nil => intro seen; simp [dedupFirstAux]
  | cons x xs ih =>
    intro seen
    by_cases hx : x ∈ seen
    · rw [dedupFirstAux, if_pos hx]; exact ih seen
    · rw [dedupFirstAux, if_neg hx]
      refine List.nodup_cons.mpr ⟨?_, ih (x :: seen)⟩
      intro hmem
      exact dedupFirstAux_not_mem_seen xs (x :: seen) x hmem (List.mem_cons_self _ _)

theorem dedupFirst_nodup [DecidableEq α] (l : List α) : (dedupFirst l).Nodup :=
  dedupFirstAux_nodup l []

/-! ## Stable descending sort

`Array.prototype.sort` (ES2019 and later) is a stable sort and mutates
the array in place.  With the comparator `(a, b) => b.lines - a.lines`
used by `buildCodeStructureMap`, the result is the unique stable
reordering that is descending in the key, which an insertion sort
computes. -/

/-- Insert `x` into a descending-by-`f` list, after all elements with a
key `≥ f x` (ties keep the earlier element first — stability). -/
def insertDescBy (f : α → Nat) (x : α) : List α → List α
  | [] => [x]
  | y :: ys => if f y < f x then x :: y :: ys else y :: insertDescBy f x ys

/-- Stable sort, descending in the key `f`. -/
def sortDescBy (f : α → Nat) (l : List α) : List α :=
  l.foldl (fun acc x => insertDescBy f x acc) []

theorem insertDescBy_perm (f : α → Nat) (x : α) (l : List α) :
    (insertDescBy f x l).Perm (x :: l) := by
  induction l with
  | nil => simp [insertDescBy]
  | cons y ys ih =>
    rw [insertDescBy]
    by_cases h : f y < f x
    · rw [if_pos h]
    · rw [if_neg h]
      exact (ih.cons y).trans (List.Perm.swap x y ys)

theorem insertDescBy_sorted (f : α → Nat) (x : α) (l : List α)
    (hl : l.Pairwise (fun a b => f b ≤ f a)) :
    (insertDescBy f x l).Pairwise (fun a b => f b ≤ f a) := by
  induction l with
  | nil => simp [insertDescBy]
  | cons y ys ih =>
    rw [insertDescBy]
    rcases List.pairwise_cons.mp hl with ⟨hy, hys⟩
    by_cases h : f y < f x
    · rw [if_pos h]
      refine List.pairwise_cons.mpr ⟨?_, hl⟩
      intro b hb
      rcases List.mem_cons.mp hb with rfl | hb
      · omega
      · have := hy b hb; omega
    · rw [if_neg h]
      refine List.pairwise_cons.mpr ⟨?_, ih hys⟩
      intro b hb
      have hb' := (insertDescBy_perm f x ys).mem_iff.mp hb
      rcases List.mem_cons.mp hb' with rfl | hb'
      · omega
      · exact hy b hb'

theorem sortDescBy_perm (f : α → Nat) (l : List α) : (sortDescBy f l).Perm l := by
  suffices h : ∀ acc : List α,
      (l.foldl (fun acc x => insertDescBy f x acc) acc).Perm (l.reverse ++ acc) by
    have := h []
    simpa [sortDescBy] using this.trans (by simp)
  induction l with
  | nil => intro acc; simp
  | cons x xs ih =>
    intro acc
    simp only [List.foldl_cons, List.reverse_cons, List.append_assoc, List.singleton_append]
    refine (ih (insertDescBy f x acc)).trans ?_
    exact (insertDescBy_perm f x acc).append_left _

theorem sortDescBy_sorted (f : α → Nat) (l : List α) :
    (sortDescBy f l).Pairwise (fun a b => f b ≤ f a) := by
  suffices h : ∀ acc : List α, acc.Pairwise (fun a b => f b ≤ f a) →
      (l.foldl (fun acc x => insertDescBy f x acc) acc).Pairwise (fun a b => f b ≤ f a) by
    exact h [] (by simp)
  induction l with
  | nil => intro acc hacc; simpa using hacc
  | cons x xs ih =>
    intro acc hacc
    exact ih _ (insertDescBy_sorted f x acc hacc)

/-! ## A backtracking regex engine

The analyzer works almost entirely through JavaScript regular
expressions.  We interpret them with a small continuation-passing
backtracking matcher with leftmost-first alternation, greedy and lazy
stars, numbered capture groups, the multiline anchors and word
boundaries — the fragment the source uses.  A fuel argument bounds the
recursion depth; the fuel supplied by the entry points is large enough
for every path the matcher can explore (depth is bounded by the input
length times the pattern size). -/

/-- The JS `\w` class: ASCII letters, digits and underscore. -/
def isWordChar (c : Char) : Bool :=
  c.isAlphanum || c = '_'

/-- Regular expressions, as used by the analyzer: character classes,
concatenation, alternation, greedy and lazy star, capture groups, the
`^`/`$` anchors of multiline mode, end-of-string `$`, and `\b`. -/
inductive RE where
  | eps
  | cls (p : Char → Bool)
  | cat (a b : RE)
  | alt (a b : RE)
  | starG (r : RE)
  | starL (r : RE)
  | grp (n : Nat) (r : RE)
  | bol
  | eolm
  | eos
  | wb

/-- Recorded capture groups: group number paired with matched text,
most recent first (a later binding of the same group shadows an
earlier one, as in JS). -/
abbrev Caps := List (Nat × List Char)

/-- The backtracking matcher.  `prev` is the character just before the
current position (`none` at the start of the haystack) — needed for the
`^`-in-multiline and `\b` assertions.  The continuation receives the
updated `prev`, the remaining input and the captures; the first success
in leftmost-first order wins. -/
def RE.run : Nat → RE → Option Char → List Char → Caps →
    (Option Char → List Char → Caps → Option (List Char × Caps)) →
    Option (List Char × Caps)
  | 0, _, _, _, _, _ => none
  | _ + 1, .eps, prev, s, caps, k => k prev s caps
  | _ + 1, .cls p, _, s, caps, k =>
    match s with
    | [] => none
    | c :: rest => if p c then k (some c) rest caps else none
  | fuel + 1, .cat a b, prev, s, caps, k =>
    RE.run fuel a prev s caps (fun prev2 s2 caps2 => RE.run fuel b prev2 s2 caps2 k)
  | fuel + 1, .alt a b, prev, s, caps, k =>
    (RE.run fuel a prev s caps k).orElse (fun _ => RE.run fuel b prev s caps k)
  | fuel + 1, .starG r, prev, s, caps, k =>
    (RE.run fuel r prev s caps (fun prev2 s2 caps2 =>
      if s2.length = s.length then none
      else RE.run fuel (.starG r) prev2 s2 caps2 k)).orElse
      (fun _ => k prev s caps)
  | fuel + 1, .starL r, prev, s, caps, k =>
    (k prev s caps).orElse (fun _ =>
      RE.run fuel r prev s caps (fun prev2 s2 caps2 =>
        if s2.length = s.length then none
        else RE.run fuel (.starL r) prev2 s2 caps2 k))
  | fuel + 1, .grp n r, prev, s, caps, k =>
    RE.run fuel r prev s caps (fun prev2 s2 caps2 =>
      k prev2 s2 ((n, s.take (s.length - s2.length)) :: caps2))
  | _ + 1, .bol, prev, s, caps, k =>
    if prev.elim true (fun c => c = '\n') then k prev s caps else none
  | _ + 1, .eolm, prev, s, caps, k =>
    match s with
    | [] => k prev s caps
    | c :: _ => if c = '\n' || c = '\r' then k prev s caps else none
  | _ + 1, .eos, prev, s, caps, k =>
    match s with
    | [] => k prev s caps
    | _ :: _ => none
  | _ + 1, .wb, prev, s, caps, k =>
    let pw := prev.elim false isWordChar
    let nw := match s with | [] => false | c :: _ => isWordChar c
    if pw ≠ nw then k prev s caps else none

/-- Node count of a pattern, used to size the fuel. -/
def RE.size : RE → Nat
  | .eps | .bol | .eolm | .eos | .wb => 1
  | .cls _ => 1
  | .cat a b | .alt a b => a.size + b.size + 1
  | .starG r | .starL r | .grp _ r => r.size + 1

/-- Fuel that dominates the maximal recursion depth of `RE.run` on
input `s`: every star iteration consumes at least one character, so a
path traverses at most `size` nodes per consumed character. -/
def reFuel (r : RE) (s : List Char) : Nat :=
  (s.length + 2) * (r.size + 2) + r.size + 16

/-- Find the leftmost match of `r` in `s` starting at the current
position or later; returns (matched text, rest of input, captures).
The scan fuel (first `Nat`) only needs to dominate `s.length`. -/
def reSearchFuel (r : RE) (fuel : Nat) : Nat → Option Char → List Char →
    Option (List Char × List Char × Caps)
  | 0, _, _ => none
  | scan + 1, prev, s =>
    match RE.run fuel r prev s [] (fun _ rest caps => some (rest, caps)) with
    | some (rest, caps) => some (s.take (s.length - rest.length), rest, caps)
    | none =>
      match s with
      | [] => none
      | c :: rest => reSearchFuel r fuel scan (some c) rest

/-- Leftmost match of `r` in `s` from the position after `prev`. -/
def reSearchAux (r : RE) (fuel : Nat) (prev : Option Char) (s : List Char) :
    Option (List Char × List Char × Caps) :=
  reSearchFuel r fuel (s.length + 1) prev s

/-- `re.test(s)` — does `r` match anywhere in `s`? -/
def reTest (r : RE) (s : String) : Bool :=
  (reSearchAux r (reFuel r s.data) none s.data).isSome

/-- `s.match(re)` for a non-global `re`: the matched text together with
a lookup for the numbered capture groups (`none` for a group that did
not participate). -/
def reFirst (r : RE) (s : String) : Option (String × (Nat → Option String)) :=
  match reSearchAux r (reFuel r s.data) none s.data with
  | none => none
  | some (m, _, caps) =>
    some (⟨m⟩, fun n => (caps.find? (fun pc => pc.1 = n)).map (fun pc => String.mk pc.2))

/-- Worker for the global match: repeatedly search, resuming after each
match (advancing one character after an empty match, as `lastIndex`
does in JS). -/
def reFindAllAux (r : RE) : Nat → Option Char → List Char → List (List Char)
  | 0, _, _ => []
  | fm + 1, prev, s =>
    match reSearchAux r (reFuel r s) prev s with
    | none => []
    | some (m, rest, _) =>
      if m.isEmpty then
        match rest with
        | [] => [m]
        | c :: rest2 => m :: reFindAllAux r fm (some c) rest2
      else
        m :: reFindAllAux r fm m.getLast? rest

/-- `s.match(re-with-g-flag) || []` — the list of matched substrings. -/
def reFindAll (r : RE) (s : String) : List String :=
  (reFindAllAux r (s.data.length + 1) none s.data).map String.mk

/-! ### Pattern-building helpers -/

/-- The apostrophe character. -/
def chQuote : Char := Char.ofNat 39

/-- The backtick character. -/
def chBacktick : Char := Char.ofNat 96

/-- The opening curly brace. -/
def chLBrace : Char := Char.ofNat 123

/-- The closing curly brace. -/
def chRBrace : Char := Char.ofNat 125

/-- A single literal character. -/
def reChar (c : Char) : RE := RE.cls (fun c2 => c2 = c)

/-- A single literal character, case-insensitively (the `i` flag). -/
def reCharI (c : Char) : RE := RE.cls (fun c2 => c2.toLower = c.toLower)

/-- A literal string. -/
def reLit (s : String) : RE := (s.data.map reChar).foldr RE.cat RE.eps

/-- A literal string under the `i` flag. -/
def reLitI (s : String) : RE := (s.data.map reCharI).foldr RE.cat RE.eps

/-- Concatenation of a list of patterns. -/
def reSeq (rs : List RE) : RE := rs.foldr RE.cat RE.eps

/-- A pattern that never matches (used as the base of `reAlts`). -/
def reNever : RE := RE.cls (fun _ => false)

/-- Alternation over a list, leftmost priority. -/
def reAlts (rs : List RE) : RE := rs.foldr RE.alt reNever

/-- `r+` (greedy). -/
def rePlus (r : RE) : RE := RE.cat r (RE.starG r)

/-- `r?` (greedy). -/
def reOpt (r : RE) : RE := RE.alt r RE.eps

/-- The `\s` class. -/
def reWs : RE := RE.cls isJsSpace

/-- The `\S` class. -/
def reNonWs : RE := RE.cls (fun c => !(isJsSpace c))

/-- The `\w` class. -/
def reWord : RE := RE.cls isWordChar

/-- The `.` class without the `s` flag: anything but a line terminator. -/
def reDot : RE := RE.cls (fun c => !(c = '\n' || c = '\r'))

/-- The `[\s\S]` class: any character at all. -/
def reAnyChar : RE := RE.cls (fun _ => true)

/-- A character class listing its members. -/
def reOneOf (cs : List Char) : RE := RE.cls (fun c => cs.contains c)

/-- A negated character class. -/
def reNoneOf (cs : List Char) : RE := RE.cls (fun c => !(cs.contains c))

/-- The `[a-zA-Z_]` class. -/
def reAlphaUnd : RE := RE.cls (fun c => c.isAlpha || c = '_')

/-- The `[a-zA-Z0-9_]` class (same as `\w`). -/
def reAlnumUnd : RE := RE.cls (fun c => c.isAlphanum || c = '_')

/-! ## codeAnalyzer.ts — dependency extraction

Transcriptions of the regex strategies of `extractImports`
(`src/utils/codeAnalyzer.ts`).  Each definition's comment names the
source regex it embeds. -/

/-- The quote class of the JS/TS patterns: apostrophe, double quote, backtick. -/
def jsQuotes : List Char := [chQuote, '"', chBacktick]

/-- `import\s+.*?\s+from\s+[quote]([^quote]+)[quote]` (global) — ES-module imports. -/
def jsImportFromRE : RE :=
  reSeq [reLit "import", rePlus reWs, RE.starL reDot, rePlus reWs,
    reLit "from", rePlus reWs, reOneOf jsQuotes,
    RE.grp 1 (rePlus (reNoneOf jsQuotes)), reOneOf jsQuotes]

/-- `from\s+[quote]([^quote]+)[quote]` — module-name extraction from an import match. -/
def jsFromExtractRE : RE :=
  reSeq [reLit "from", rePlus reWs, reOneOf jsQuotes,
    RE.grp 1 (rePlus (reNoneOf jsQuotes)), reOneOf jsQuotes]

/-- `require\([quote]([^quote]+)[quote]\)` — CommonJS requires. -/
def jsRequireRE : RE :=
  reSeq [reLit "require", reChar '(', reOneOf jsQuotes,
    RE.grp 1 (rePlus (reNoneOf jsQuotes)), reOneOf jsQuotes, reChar ')']

/-- Python `(?:from\s+(\S+)\s+import|import\s+(\S+))`. -/
def pyImportRE : RE :=
  RE.alt
    (reSeq [reLit "from", rePlus reWs, RE.grp 1 (rePlus reNonWs), rePlus reWs, reLit "import"])
    (reSeq [reLit "import", rePlus reWs, RE.grp 2 (rePlus reNonWs)])

/-- A Java/Rust identifier `[a-zA-Z_][a-zA-Z0-9_]*`. -/
def identRE : RE := reSeq [reAlphaUnd, RE.starG reAlnumUnd]

/-- A dot-qualified Java name `ident(?:\.ident)*`. -/
def javaQualifiedRE : RE :=
  reSeq [identRE, RE.starG (reSeq [reChar '.', identRE])]

/-- Java global `import\s+(static\s+)?(qualified(?:\.\*)?)\s*;`. -/
def javaImportGlobalRE : RE :=
  reSeq [reLit "import", rePlus reWs,
    reOpt (RE.grp 1 (reSeq [reLit "static", rePlus reWs])),
    RE.grp 2 (reSeq [javaQualifiedRE, reOpt (reSeq [reChar '.', reChar '*'])]),
    RE.starG reWs, reChar ';']

/-- Java extraction `import\s+(?:static\s+)?(qualified)`. -/
def javaImportExtractRE : RE :=
  reSeq [reLit "import", rePlus reWs,
    reOpt (reSeq [reLit "static", rePlus reWs]), RE.grp 1 javaQualifiedRE]

/-- Go global `import\s+(?:\(\s*([^)]+)\s*\)|"([^"]+)")`. -/
def goImportRE : RE :=
  reSeq [reLit "import", rePlus reWs,
    RE.alt
      (reSeq [reChar '(', RE.starG reWs, RE.grp 1 (rePlus (reNoneOf [')'])),
        RE.starG reWs, reChar ')'])
      (reSeq [reChar '"', RE.grp 2 (rePlus (reNoneOf ['"'])), reChar '"'])]

/-- Go inner `"([^"]+)"`. -/
def goQuotedRE : RE :=
  reSeq [reChar '"', RE.grp 1 (rePlus (reNoneOf ['"'])), reChar '"']

/-- A Rust path segment list `ident(?:::ident)*`. -/
def rustPathRE : RE :=
  reSeq [identRE, RE.starG (reSeq [reLit "::", identRE])]

/-- Rust global
`use\s+(path(?:::(?:\x7b[^\x7d]+\x7d|\*|ident))?)(?:\s+as\s+ident)?;`. -/
def rustUseGlobalRE : RE :=
  reSeq [reLit "use", rePlus reWs,
    RE.grp 1 (reSeq [rustPathRE,
      reOpt (reSeq [reLit "::",
        reAlts [reSeq [reChar chLBrace, rePlus (reNoneOf [chRBrace]), reChar chRBrace],
          reChar '*', identRE]])]),
    reOpt (reSeq [rePlus reWs, reLit "as", rePlus reWs, identRE]),
    reChar ';']

/-- Rust extraction `use\s+(path)`. -/
def rustUseExtractRE : RE :=
  reSeq [reLit "use", rePlus reWs, RE.grp 1 rustPathRE]

/-- C/C++ `#include\s*[<"]([^>"]+)[>"]`. -/
def cppIncludeRE : RE :=
  reSeq [reLit "#include", RE.starG reWs, reOneOf ['<', '"'],
    RE.grp 1 (rePlus (reNoneOf ['>', '"'])), reOneOf ['>', '"']]

/-- PHP quote class (apostrophe or double quote). -/
def phpQuotes : List Char := [chQuote, '"']

/-- PHP require alternative `(?:require|include)(?:_once)?\s*\(?[qu]([^qu]+)[qu]`. -/
def phpRequireAltRE : RE :=
  reSeq [RE.alt (reLit "require") (reLit "include"), reOpt (reLit "_once"),
    RE.starG reWs, reOpt (reChar '('), reOneOf phpQuotes,
    RE.grp 1 (rePlus (reNoneOf phpQuotes)), reOneOf phpQuotes]

/-- PHP use alternative `use\s+([a-zA-Z_\\][a-zA-Z0-9_\\]*)` (group 2 in the global pattern). -/
def phpUseAltRE : RE :=
  reSeq [reLit "use", rePlus reWs,
    RE.grp 2 (reSeq [RE.cls (fun c => c.isAlpha || c = '_' || c = '\\'),
      RE.starG (RE.cls (fun c => c.isAlphanum || c = '_' || c = '\\'))])]

/-- PHP global pattern: the alternation of the two alternatives above. -/
def phpImportGlobalRE : RE := RE.alt phpRequireAltRE phpUseAltRE

/-- PHP extraction for the require form (group 1). -/
def phpRequireExtractRE : RE := phpRequireAltRE

/-- PHP extraction for the use form, renumbered to group 1 as in
`match.match(/use\s+([a-zA-Z_\\][a-zA-Z0-9_\\]*)/)`. -/
def phpUseExtractRE : RE :=
  reSeq [reLit "use", rePlus reWs,
    RE.grp 1 (reSeq [RE.cls (fun c => c.isAlpha || c = '_' || c = '\\'),
      RE.starG (RE.cls (fun c => c.isAlphanum || c = '_' || c = '\\'))])]

/-- Ruby global `require\s*[qu]([^qu]+)[qu]|require_relative\s*[qu]([^qu]+)[qu]`. -/
def rbImportGlobalRE : RE :=
  RE.alt
    (reSeq [reLit "require", RE.starG reWs, reOneOf phpQuotes,
      RE.grp 1 (rePlus (reNoneOf phpQuotes)), reOneOf phpQuotes])
    (reSeq [reLit "require_relative", RE.starG reWs, reOneOf phpQuotes,
      RE.grp 2 (rePlus (reNoneOf phpQuotes)), reOneOf phpQuotes])

/-- Ruby extraction `require(?:_relative)?\s*[qu]([^qu]+)[qu]`. -/
def rbExtractRE : RE :=
  reSeq [reLit "require", reOpt (reLit "_relative"), RE.starG reWs, reOneOf phpQuotes,
    RE.grp 1 (rePlus (reNoneOf phpQuotes)), reOneOf phpQuotes]

/-- Re-match `extractRe` against a global-match text `m` and return its
group 1, as the `forEach` bodies of `extractImports` do. -/
def extractGroup1 (extractRe : RE) (m : String) : Option String :=
  (reFirst extractRe m).bind (fun fm => fm.2 1)

/-- The `switch (extension)` body of `extractImports`: the raw pushed
`imports` list before the final filter. -/
def extractImportsRaw (content : String) (extension : String) : List String :=
  if extension = ".js" || extension = ".ts" || extension = ".tsx" || extension = ".jsx" then
    (reFindAll jsImportFromRE content).filterMap (extractGroup1 jsFromExtractRE) ++
    (reFindAll jsRequireRE content).filterMap (extractGroup1 jsRequireRE)
  else if extension = ".py" then
    (reFindAll pyImportRE content).filterMap (fun m =>
      (reFirst pyImportRE m).bind (fun fm => (fm.2 1).orElse (fun _ => fm.2 2)))
  else if extension = ".java" then
    (reFindAll javaImportGlobalRE content).filterMap (extractGroup1 javaImportExtractRE)
  else if extension = ".go" then
    (reFindAll goImportRE content).flatMap (fun m =>
      if jsIncludes m "(" then
        (reFindAll goQuotedRE m).filterMap (fun imp =>
          let cleaned : String := ⟨imp.data.filter (fun c => c ≠ '"')⟩
          if cleaned.isEmpty then none else some cleaned)
      else
        (extractGroup1 goQuotedRE m).toList)
  else if extension = ".rs" then
    (reFindAll rustUseGlobalRE content).filterMap (extractGroup1 rustUseExtractRE)
  else if extension = ".cpp" || extension = ".c" || extension = ".h" || extension = ".hpp" then
    (reFindAll cppIncludeRE content).filterMap (extractGroup1 cppIncludeRE)
  else if extension = ".php" then
    (reFindAll phpImportGlobalRE content).flatMap (fun m =>
      (extractGroup1 phpRequireExtractRE m).toList ++ (extractGroup1 phpUseExtractRE m).toList)
  else if extension = ".rb" then
    (reFindAll rbImportGlobalRE content).filterMap (extractGroup1 rbExtractRE)
  else
    []

/-- `extractImports` — the raw per-extension matches, then
`imports.filter(imp => imp && !imp.startsWith('.'))`. -/
def extractImports (content : String) (extension : String) : List String :=
  (extractImportsRaw content extension).filter
    (fun imp => !imp.isEmpty && !(jsStartsWith imp "."))

example : extractImports "import \x7b x \x7d from \"left-pad\"" ".ts" = ["left-pad"] := by decide
example : extractImports "require(\"pkg\")" ".js" = ["pkg"] := by decide
example : extractImports "import x from \"./local\"" ".js" = [] := by decide

/-! ## codeAnalyzer.ts — entry-point detection -/

/-- The fixed `entryPatterns` list of `isEntryPoint`, in source order. -/
def entryPatterns : List RE := [
  reSeq [reLit "main", RE.starG reWs, reChar '('],
  reSeq [reLit "express", reChar '(', reChar ')'],
  reSeq [reLit "createApp", reChar '('],
  reLit "ReactDOM.render",
  reSeq [reLit "new", rePlus reWs, reLit "Server", reChar '('],
  reSeq [reLit "if", rePlus reWs, reLit "__name__", RE.starG reWs, reLit "==",
    RE.starG reWs, reOneOf phpQuotes, reLit "__main__", reOneOf phpQuotes],
  reSeq [reLit "public", rePlus reWs, reLit "static", rePlus reWs, reLit "void",
    rePlus reWs, reLit "main", RE.starG reWs, reChar '('],
  reSeq [reLit "int", rePlus reWs, reLit "main", RE.starG reWs, reChar '('],
  reSeq [reLit "void", rePlus reWs, reLit "main", RE.starG reWs, reChar '('],
  reSeq [reLit "func", rePlus reWs, reLit "main", RE.starG reWs, reChar '(',
    RE.starG reWs, reChar ')'],
  reSeq [reLit "fn", rePlus reWs, reLit "main", RE.starG reWs, reChar '(',
    RE.starG reWs, reChar ')'],
  reSeq [reLit "static", rePlus reWs, reLit "void", rePlus reWs, reLit "Main",
    RE.starG reWs, reChar '('],
  RE.alt (reSeq [reLit "namespace", rePlus reWs]) (reLit "<?php"),
  reSeq [reLit "if", rePlus reWs, reLit "__FILE__", RE.starG reWs, reLit "==",
    RE.starG reWs, reLit "$0"]
]

/-- The `isMainFile` name fragments of `isEntryPoint`. -/
def mainFileNames : List String := ["index", "main", "app", "server", "program"]

/-- `isEntryPoint(content, filePath)`: path contains a main-ish name,
OR the content matches one of the fixed signatures. -/
def isEntryPoint (content : String) (filePath : String) : Bool :=
  let isMainFile := mainFileNames.any (fun name => jsIncludes (jsToLower filePath) name)
  let hasEntryPattern := entryPatterns.any (fun p => reTest p content)
  isMainFile || hasEntryPattern

/-! ## codeAnalyzer.ts — idiom tagging (`detectPatterns`) -/

/-- One boolean test appending a tag when it fires. -/
def tagIf (b : Bool) (tag : String) : List String :=
  if b then [tag] else []

/-- `detectPatterns(content, filePath)` — the fixed ordered list of
independent regex tests of `codeAnalyzer.ts`, each appending its tag. -/
def detectPatterns (content : String) (filePath : String) : List String :=
  tagIf (reTest (reAlts [
      reSeq [reLitI "class", rePlus reWs, rePlus reWord],
      reSeq [reLitI "struct", rePlus reWs, rePlus reWord],
      reSeq [reLitI "interface", rePlus reWs, rePlus reWord]]) content) "OOP/Classes" ++
  tagIf (reTest (reAlts [
      reSeq [reLitI "function", rePlus reWs, rePlus reWord],
      reSeq [reLitI "def", rePlus reWs, rePlus reWord],
      reSeq [reLitI "fn", rePlus reWs, rePlus reWord],
      reSeq [reLitI "func", rePlus reWs, rePlus reWord],
      reSeq [reLitI "const", rePlus reWs, rePlus reWord, RE.starG reWs, reChar '=',
        RE.starG reDot, reLit "=>"],
      reSeq [rePlus reWord, RE.starG reWs, reChar '(']]) content) "Functions" ++
  tagIf (reTest (reAlts [
      reSeq [reChar '.', reLitI "then", reChar '('],
      reSeq [reLitI "async", rePlus reWs],
      reSeq [reLitI "await", rePlus reWs],
      reLitI "Promise", reLitI "Future", reLitI "Task"]) content) "Async/Promises" ++
  tagIf (reTest (reAlts [
      reSeq [reLit "try", RE.starG reWs, reChar chLBrace],
      reSeq [RE.wb, reLit "try:", RE.starG reWs, RE.eolm],
      reSeq [reLit "catch", RE.starG reWs, reChar '('],
      reSeq [reLit "except", RE.starG reWs, reChar ':']]) content) "Error Handling" ++
  tagIf (reTest (reAlts [
      reSeq [reLitI "test", RE.starG reWs, reChar '('],
      reSeq [reLitI "describe", RE.starG reWs, reChar '('],
      reSeq [reLitI "it", RE.starG reWs, reChar '('],
      reLitI "@Test", reLitI "unittest", reLitI "pytest"]) content) "Testing" ++
  tagIf (reTest (reAlts [
      reSeq [reLitI "export", rePlus reWs, reOpt (reSeq [reLitI "default", rePlus reWs])],
      reLitI "module.exports"]) content) "ES6 Modules" ++
  tagIf (reTest (reAlts [
      reLitI "React.", reLitI "useState", reLitI "useEffect",
      reLitI "Component"]) content) "React" ++
  tagIf (reTest (reAlts [
      reSeq [reLitI "express", reChar '(', reChar ')'],
      reLitI "app.get", reLitI "app.post", reLitI "router."]) content) "Express.js/Web Server" ++
  tagIf (reTest (reAlts [
      reLitI "SELECT", reLitI "INSERT", reLitI "UPDATE", reLitI "DELETE",
      reLitI "CREATE TABLE", reLitI "ALTER TABLE"]) content) "SQL/Database" ++
  tagIf (reTest (reAlts [
      reLitI "mongoose.", reLitI "sequelize.", reLitI "prisma.",
      reLitI "TypeORM", reLitI "Hibernate"]) content) "ORM" ++
  tagIf (reTest (reAlts [
      reLitI "__init__.py",
      reSeq [reLitI "if", rePlus reWs, reLitI "__name__", RE.starG reWs, reLit "=="],
      reSeq [reLitI "import", rePlus reWs, rePlus reWord],
      reSeq [reLitI "from", rePlus reWs, rePlus reWord]]) content) "Python Modules" ++
  tagIf (reTest (reAlts [
      reLitI "django", reLitI "flask", reLitI "fastapi",
      reLitI "@app.", reLitI "@router."]) content) "Python Web Framework" ++
  tagIf (reTest (reAlts [
      reLitI "numpy", reLitI "pandas", reLitI "matplotlib", reLitI "sklearn",
      reLitI "tensorflow", reLitI "pytorch"]) content) "Data Science/ML" ++
  tagIf (reTest (reAlts [
      reSeq [reLitI "package", rePlus reWs, rePlus reWord],
      reSeq [reLitI "import", rePlus reWs, reLitI "java."],
      reLitI "@Override", reLitI "@Component"]) content) "Java/JVM" ++
  tagIf (reTest (reAlts [
      reLitI "Spring", reLitI "@Autowired", reLitI "@Service",
      reLitI "@Repository", reLitI "@Controller"]) content) "Spring Framework" ++
  tagIf (reTest (reAlts [
      reLitI "JUnit", reLitI "@Test", reLitI "Mockito"]) content) "Java Testing" ++
  tagIf (reTest (reAlts [
      reSeq [reLitI "package", rePlus reWs, rePlus reWord],
      reSeq [reLitI "import", rePlus reWs, reChar '('],
      reSeq [reLitI "func", rePlus reWs, rePlus reWord],
      reSeq [reLitI "go", rePlus reWs, reLitI "func"],
      reSeq [reLitI "chan", rePlus reWs]]) content) "Go Language" ++
  tagIf (reTest (reAlts [
      reLitI "gorilla/mux", reLitI "gin.", reLitI "echo.",
      reLitI "http.Handle"]) content) "Go Web Server" ++
  tagIf (reTest (reAlts [
      reSeq [reLitI "use", rePlus reWs, rePlus reWord],
      reSeq [reLitI "mod", rePlus reWs, rePlus reWord],
      reSeq [reLitI "impl", rePlus reWs, rePlus reWord],
      reLitI "#[derive", reLitI "cargo"]) content) "Rust Language" ++
  tagIf (reTest (reAlts [
      reLitI "actix", reLitI "warp", reLitI "rocket", reLitI "axum"]) content)
    "Rust Web Framework" ++
  tagIf (reTest (reAlts [
      reLitI "#include", reLitI "#define", reLitI "#ifndef",
      reLitI "std::", reLitI "using namespace"]) content) "C/C++" ++
  tagIf (reTest (reAlts [
      reLitI "iostream", reLitI "vector", reLitI "string", reLitI "map",
      reLitI "set", reLitI "algorithm"]) content) "C++ STL" ++
  tagIf (reTest (reAlts [
      reLitI "docker", reLitI "dockerfile", reLitI "kubernetes",
      reLitI "helm", reLitI "terraform"]) content) "DevOps/Infrastructure" ++
  tagIf (reTest (reAlts [
      reLitI ".yml", reLitI ".yaml", reLitI "ansible", reLitI "pipeline"])
    (jsToLower filePath)) "Configuration as Code"

/-! ## codeAnalyzer.ts — architecture tagging (`analyzeArchitecture`) -/

/-- `analyzeArchitecture(content, filePath)` — fixed regex tests for
structural roles, in source order, no `i` flags; the `filePath`
parameter is declared but unused in the source as well. -/
def analyzeArchitecture (content : String) (_filePath : String) : List String :=
  tagIf (reTest (reAlts [
      reSeq [reLit "server", RE.starG reWs, reChar '=', RE.starG reWs, reLit "new",
        rePlus reWs, reLit "Server"],
      reLit "createServer",
      reSeq [reLit "express", reChar '(', reChar ')']]) content) "Server Architecture" ++
  tagIf (reTest (reAlts [
      reLit "router.", reSeq [reLit "Router", reChar '('], reLit "app.use"]) content)
    "Routing Pattern" ++
  tagIf (reTest (reAlts [
      reLit "middleware", reSeq [reLit "app.use", reChar '(']]) content)
    "Middleware Pattern" ++
  tagIf (reTest (reAlts [
      reSeq [reLit "class", rePlus reWs, rePlus reWord, RE.starG reDot, reLit "Controller"],
      reSeq [reLit "Controller", RE.starG reDot, reChar chLBrace]]) content)
    "Controller Pattern" ++
  tagIf (reTest (reAlts [
      reSeq [reLit "class", rePlus reWs, rePlus reWord, RE.starG reDot, reLit "Service"],
      reSeq [reLit "Service", RE.starG reDot, reChar chLBrace]]) content)
    "Service Layer Pattern" ++
  tagIf (reTest (reAlts [
      reSeq [reLit "class", rePlus reWs, rePlus reWord, RE.starG reDot, reLit "Repository"],
      reSeq [reLit "Repository", RE.starG reDot, reChar chLBrace]]) content)
    "Repository Pattern" ++
  tagIf (reTest (reAlts [
      reLit "Observable", reLit "Subject", reSeq [reLit "pipe", reChar '(']]) content)
    "Reactive Programming" ++
  tagIf (reTest (reAlts [
      reLit "useState", reLit "useEffect", reLit "useContext"]) content)
    "React Hooks Pattern" ++
  tagIf (reTest (reSeq [reLit "try", RE.starG reWs, reChar chLBrace, RE.starG reAnyChar,
      reLit "catch", RE.starG reWs, reChar '(']) content) "Error Handling" ++
  tagIf (reTest (reAlts [
      reLit "logger.", reLit "console.", reSeq [reLit "log", reChar '(']]) content)
    "Logging" ++
  tagIf (reTest (reAlts [
      reLit "process.env", reLit "config.", reLit "Config"]) content)
    "Configuration Management" ++
  tagIf (reTest (reAlts [
      reLit "Tool[]", reLit "tools:", reLit "setRequestHandler"]) content)
    "MCP Server Pattern"

/-! ## codeAnalyzer.ts — code-element extraction -/

/-- `CodeElement` of `types/index.ts`; optional fields are absent
(`none`) exactly when the source object literal omits them. -/
structure CodeElement where
  type : String
  name : String
  file : String
  methods : Option (List String) := none
  lineEstimate : Option Nat := none
  isAsync : Option Bool := none
  isExported : Option Bool := none
deriving DecidableEq, Repr

/-- Class bodies: `class\s+(\w+)[\s\S]*?\x7b([\s\S]*?)^\x7d` with the g and m flags. -/
def classRE : RE :=
  reSeq [reLit "class", rePlus reWs, RE.grp 1 (rePlus reWord), RE.starL reAnyChar,
    reChar chLBrace, RE.grp 2 (RE.starL reAnyChar), RE.bol, reChar chRBrace]

/-- Class-name extraction `class\s+(\w+)`. -/
def classNameRE : RE :=
  reSeq [reLit "class", rePlus reWs, RE.grp 1 (rePlus reWord)]

/-- Method scan `^\s*(public|private|protected)?\s*(\w+)\s*\(` with the g and m flags. -/
def methodsRE : RE :=
  reSeq [RE.bol, RE.starG reWs,
    reOpt (RE.grp 1 (reAlts [reLit "public", reLit "private", reLit "protected"])),
    RE.starG reWs, RE.grp 2 (rePlus reWord), RE.starG reWs, reChar '(']

/-- Standalone functions `(?:export\s+)?(?:async\s+)?function\s+(\w+)` (global). -/
def functionRE : RE :=
  reSeq [reOpt (reSeq [reLit "export", rePlus reWs]),
    reOpt (reSeq [reLit "async", rePlus reWs]),
    reLit "function", rePlus reWs, RE.grp 1 (rePlus reWord)]

/-- Function-name extraction `function\s+(\w+)`. -/
def functionNameRE : RE :=
  reSeq [reLit "function", rePlus reWs, RE.grp 1 (rePlus reWord)]

/-- Arrow functions `(?:export\s+)?const\s+(\w+)\s*=\s*(?:async\s+)?\(([^)]*)\)\s*=>`
(the parameter part is `[^)]*`, no capture in the source). -/
def arrowFunctionRE : RE :=
  reSeq [reOpt (reSeq [reLit "export", rePlus reWs]),
    reLit "const", rePlus reWs, RE.grp 1 (rePlus reWord), RE.starG reWs, reChar '=',
    RE.starG reWs, reOpt (reSeq [reLit "async", rePlus reWs]),
    reChar '(', RE.starG (reNoneOf [')']), reChar ')', RE.starG reWs, reLit "=>"]

/-- Const-name extraction `const\s+(\w+)`. -/
def constNameRE : RE :=
  reSeq [reLit "const", rePlus reWs, RE.grp 1 (rePlus reWord)]

/-- `(?:export\s+)?interface\s+(\w+)` (global). -/
def interfaceRE : RE :=
  reSeq [reOpt (reSeq [reLit "export", rePlus reWs]),
    reLit "interface", rePlus reWs, RE.grp 1 (rePlus reWord)]

/-- `interface\s+(\w+)`. -/
def interfaceNameRE : RE :=
  reSeq [reLit "interface", rePlus reWs, RE.grp 1 (rePlus reWord)]

/-- `(?:export\s+)?type\s+(\w+)` (global). -/
def typeDeclRE : RE :=
  reSeq [reOpt (reSeq [reLit "export", rePlus reWs]),
    reLit "type", rePlus reWs, RE.grp 1 (rePlus reWord)]

/-- `type\s+(\w+)`. -/
def typeDeclNameRE : RE :=
  reSeq [reLit "type", rePlus reWs, RE.grp 1 (rePlus reWord)]

/-- `m.trim().replace(parens-class-global, '')` for one method match. -/
def cleanMethodMatch (m : String) : String :=
  ⟨(jsTrim m).data.filter (fun c => c ≠ '(' && c ≠ ')')⟩

/-- `extractCodeElements(content, filePath)`: classes with harvested
method names (with `lineEstimate = index * 50`), standalone functions,
arrow functions, and — for `.ts`/`.tsx` paths — interfaces and type
aliases, concatenated in source order. -/
def extractCodeElements (content : String) (filePath : String) : List CodeElement :=
  let classElems :=
    ((reFindAll classRE content).enum).filterMap (fun im =>
      (extractGroup1 classNameRE im.2).map (fun className =>
        let methods := (reFindAll methodsRE im.2).map cleanMethodMatch
        { type := "class", name := className, file := filePath,
          methods := some methods, lineEstimate := some (im.1 * 50) }))
  let functionElems :=
    (reFindAll functionRE content).filterMap (fun m =>
      (extractGroup1 functionNameRE m).map (fun name =>
        { type := "function", name := name, file := filePath,
          isAsync := some (jsIncludes m "async"),
          isExported := some (jsIncludes m "export") }))
  let arrowElems :=
    (reFindAll arrowFunctionRE content).filterMap (fun m =>
      (extractGroup1 constNameRE m).map (fun name =>
        { type := "arrow_function", name := name, file := filePath,
          isAsync := some (jsIncludes m "async"),
          isExported := some (jsIncludes m "export") }))
  let tsElems :=
    if jsEndsWith filePath ".ts" || jsEndsWith filePath ".tsx" then
      (reFindAll interfaceRE content).filterMap (fun m =>
        (extractGroup1 interfaceNameRE m).map (fun name =>
          { type := "interface", name := name, file := filePath,
            isExported := some (jsIncludes m "export") })) ++
      (reFindAll typeDeclRE content).filterMap (fun m =>
        (extractGroup1 typeDeclNameRE m).map (fun name =>
          { type := "type", name := name, file := filePath,
            isExported := some (jsIncludes m "export") }))
    else []
  classElems ++ functionElems ++ arrowElems ++ tsElems

/-! ## codeAnalyzer.ts — the Structure Aggregator -/

/-- `FileContent` of `types/index.ts`. -/
structure FileContent where
  path : String
  content : String
  size : Nat
  lines : Nat
  extension : String
deriving DecidableEq, Repr

/-- Per-extension statistics in `filesByExtension`. -/
structure ExtStat where
  count : Nat
  totalLines : Nat
deriving DecidableEq, Repr

/-- One entry of `largestFiles`. -/
structure LargeFile where
  path : String
  lines : Nat
  size : Nat
deriving DecidableEq, Repr

/-- `CodeStructure` of `types/index.ts`.  `filesByExtension` is a JS
object with string keys, modelled as an insertion-ordered association
list. -/
structure CodeStructure where
  totalFiles : Nat
  totalLines : Nat
  totalSize : Nat
  filesByExtension : List (String × ExtStat)
  largestFiles : List LargeFile
  complexity : String
deriving DecidableEq, Repr

/-- `file.extension || 'no-extension'` (the empty string is falsy). -/
def extKey (file : FileContent) : String :=
  if file.extension = "" then "no-extension" else file.extension

/-- Add one file to the per-extension map, preserving first-insertion
key order as a JS object does. -/
def bumpExt (m : List (String × ExtStat)) (ext : String) (lines : Nat) :
    List (String × ExtStat) :=
  match m with
  | [] => [(ext, ⟨1, lines⟩)]
  | (k, st) :: tl =>
    if k = ext then (k, ⟨st.count + 1, st.totalLines + lines⟩) :: tl
    else (k, st) :: bumpExt tl ext lines

/-- The `forEach` grouping loop of `buildCodeStructureMap`. -/
def groupByExtension (files : List FileContent) : List (String × ExtStat) :=
  files.foldl (fun m f => bumpExt m (extKey f) f.lines) []

/-- `buildCodeStructureMap(fileContents)`.  The totals and the grouping
read the array in its incoming order; `fileContents.sort((a, b) =>
b.lines - a.lines)` then sorts **the argument array itself** in place
(stable, descending by `lines`), so the function returns the summary
together with the post-call state of the array. -/
def buildCodeStructureMap (fileContents : List FileContent) :
    CodeStructure × List FileContent :=
  let totalLines := (fileContents.map (fun f => f.lines)).sum
  let totalSize := (fileContents.map (fun f => f.size)).sum
  let sorted := sortDescBy (fun f => f.lines) fileContents
  let largest := (sorted.take 5).map (fun f => LargeFile.mk f.path f.lines f.size)
  let complexity :=
    if totalLines > 5000 then "High"
    else if totalLines > 1000 then "Medium"
    else "Low"
  (⟨fileContents.length, totalLines, totalSize, groupByExtension fileContents,
    largest, complexity⟩, sorted)

/-! ## fileSystem.ts — the Document Locator

`findKeyDocs` walks a directory tree with `readdirSync`/`statSync`; we
model the tree as an inductive value and the walk as structural
recursion.  The ten `keyPatterns` are anchored case-insensitive
regexes; eight of them are `^name\.md$`-shaped (full-name equality
after lowercasing) and two are suffix patterns. -/

/-- A directory entry: a plain file or a directory with its children in
`readdirSync` order. -/
inductive FsEntry where
  | file (name : String)
  | dir (name : String) (children : List FsEntry)

/-- `keyPatterns.some(p => p.test(item))`: the eight patterns of shape
`^name\.md$` with the `i` flag hold exactly when the lowercased item
equals the name; `copilot-instructions\.md$` and `claude\.md$` hold
exactly when the lowercased item has that suffix. -/
def keyPatternTest (item : String) : Bool :=
  let low := jsToLower item
  low = "readme.md" || low = "architecture.md" || low = "planning.md" ||
  low = "design.md" || low = "prd.md" || low = "contributing.md" ||
  low = "agents.md" || low = "tasks.md" ||
  jsEndsWith low "copilot-instructions.md" || jsEndsWith low "claude.md"

/-- The directory names skipped by `findKeyDocs`. -/
def keyDocsSkipDirs : List String := ["node_modules", ".git", "dist", "build"]

mutual

/-- `scanDir`'s handling of a single directory item at the given depth
(paths are segment lists; the item's path is `parent ++ [name]`). -/
def scanEntry (parent : List String) (depth : Nat) : FsEntry → List (List String)
  | .file name =>
    if jsEndsWith name ".md" && keyPatternTest name then [parent ++ [name]] else []
  | .dir name children =>
    if keyDocsSkipDirs.contains name then []
    else scanEntries (parent ++ [name]) (depth + 1) children

/-- `scanDir(dir, depth)`: nothing when `depth > 10`, otherwise the
items in order. -/
def scanEntries (dirPath : List String) (depth : Nat) : List FsEntry → List (List String)
  | [] => []
  | e :: es =>
    if depth > 10 then []
    else scanEntry dirPath depth e ++ scanEntries dirPath depth es

end

/-- `findKeyDocs(projectPath)` over a tree whose root directory has the
given children; the scan starts at depth 0.  (The surrounding
`try/catch` swallows filesystem errors; the tree model has none.) -/
def findKeyDocs (projectPath : List String) (rootChildren : List FsEntry) :
    List (List String) :=
  scanEntries projectPath 0 rootChildren

/-! ## fileSystem.ts — the Path Resolver

`findRepositoryRoot` walks upward from the resolved start path.  Paths
are modelled as segment lists measured from the filesystem root (`[]`
is the root itself), and the filesystem as a boolean existence oracle
over such paths.  `path.dirname` is `dropLast`; the walk condition
`currentPath !== rootPath` means the loop body never runs for the root
itself. -/

/-- The ordered `repositoryMarkers` list. -/
def repositoryMarkers : List String :=
  [".git", "package.json", "pyproject.toml", "Cargo.toml", "pom.xml",
   "build.gradle", "go.mod", "composer.json", "Gemfile", ".gitignore", "README.md"]

/-- Does `dir` contain any marker, in the oracle filesystem `fsys`?
(`fs.existsSync(path.join(currentPath, marker))` for some marker.) -/
def hasMarker (fsys : List String → Bool) (dir : List String) : Bool :=
  repositoryMarkers.any (fun m => fsys (dir ++ [m]))

/-- The `while (currentPath !== rootPath)` loop: check the markers at
the current directory, else move to the parent.  Fuelled by the path
depth (each iteration drops one segment). -/
def findRepoRootLoop (fsys : List String → Bool) (startPath : List String) :
    Nat → List String → List String
  | 0, _ => startPath
  | _ + 1, [] => startPath
  | fuel + 1, seg :: segs =>
    if hasMarker fsys (seg :: segs) then seg :: segs
    else findRepoRootLoop fsys startPath fuel (seg :: segs).dropLast

/-- `findRepositoryRoot(startPath)`: walk up from the (already
absolute) start path; if no non-root ancestor contains a marker,
return the original path unchanged. -/
def findRepositoryRoot (fsys : List String → Bool) (startPath : List String) :
    List String :=
  findRepoRootLoop fsys startPath (startPath.length + 1) startPath

/-! ## Node path and number helpers -/

/-- The characters of a path's basename: strip trailing slashes, then
take the last slash-separated component (Node `path.basename` on posix
paths). -/
def basenameChars (p : List Char) : List Char :=
  let stripped := (p.reverse.dropWhile (fun c => c = '/')).reverse
  (stripped.reverse.takeWhile (fun c => c ≠ '/')).reverse

/-- Node `path.basename`: `"/"` stays `"/"`, otherwise the last
component without trailing slashes. -/
def jsBasename (p : String) : String :=
  if p ≠ "" && p.data.all (fun c => c = '/') then "/" else ⟨basenameChars p.data⟩

/-- Index of the last dot in a name, if any. -/
def lastDotIndex (l : List Char) : Option Nat :=
  ((l.enum.filter (fun pc => pc.2 = '.')).map Prod.fst).getLast?

/-- Node `path.extname`: the suffix of the basename from its last dot;
empty when there is no dot or the only dot leads the name. -/
def extname (p : String) : String :=
  let b := basenameChars p.data
  match lastDotIndex b with
  | none => ""
  | some 0 => ""
  | some i => ⟨b.drop i⟩

/-- Node `path.relative(base, p)` in the only shape the pipeline needs:
`p` is produced by joining paths under `base`, so the relative path is
`p` with the `base ++ "/"` prefix removed. -/
def pathRelative (base p : String) : String :=
  if jsStartsWith p (base ++ "/") then ⟨p.data.drop (base.length + 1)⟩ else p

/-- `s.slice(0, n)` on strings. -/
def jsStrTake (n : Nat) (s : String) : String :=
  ⟨s.data.take n⟩

/-- `type.charAt(0).toUpperCase() + type.slice(1)`. -/
def jsCapitalize (s : String) : String :=
  match s.data with
  | [] => ""
  | c :: rest => ⟨c.toUpper :: rest⟩

/-- Insert a comma after every three digits of a reversed digit list. -/
def insertCommasRev : List Char → List Char
  | a :: b :: c :: d :: rest => a :: b :: c :: ',' :: insertCommasRev (d :: rest)
  | l => l

/-- `n.toLocaleString()` under the default en-US grouping: decimal
digits in groups of three separated by commas. -/
def natToLocaleString (n : Nat) : String :=
  ⟨(insertCommasRev (toString n).data.reverse).reverse⟩

/-- `(size / 1024).toFixed(1)`: the byte count divided by 1024 (exact
in binary floating point), rendered with one fractional digit, ties
rounded up — the ECMAScript `toFixed` result for these values. -/
def toFixed1KB (size : Nat) : String :=
  let n := (size * 10 + 512) / 1024
  toString (n / 10) ++ "." ++ toString (n % 10)

/-- `Option Bool` truthiness for the optional flags of `CodeElement`. -/
def optTruthy (o : Option Bool) : Bool := o.getD false

/-! ## reportGenerator.ts — data model and phase renderers -/

/-- `CodebaseAnalysis` of `types/index.ts` (the phase union type is
modelled as a string). -/
structure CodebaseAnalysis where
  projectPath : String
  phase : String
  findings : String
  nextPhaseNeeded : Bool
  timestamp : String
deriving DecidableEq, Repr

/-- `CodeAnalysisResult` of `types/index.ts`. -/
structure CodeAnalysisResult where
  dependencies : List String
  entryPoints : List String
  patterns : List String
  codeStructure : CodeStructure
  functionsAndClasses : List CodeElement
  fileContents : List FileContent
  architecture : List String
deriving DecidableEq, Repr

/-- `summarizeDocument(content, filename)`: first of the first ten
lines with more than 20 trimmed characters (else the first line, else
empty), trimmed, cut at 100 characters with an ellipsis when the
untrimmed line exceeds 100. -/
def summarizeDocument (content : String) (_filename : String) : String :=
  let lines := jsSliceTo 10 (jsSplitNl content)
  let firstParagraph := (lines.find? (fun line => (jsTrim line).length > 20)).getD (lines.headD "")
  jsStrTake 100 (jsTrim firstParagraph) ++ (if firstParagraph.length > 100 then "..." else "")

/-- One document line of the Phase 1 report; `readDoc` is the
`fs.readFileSync` oracle (`none` models a thrown read error, caught and
rendered as "Could not read file"). -/
def phase1DocLine (readDoc : String → Option String) (docPath : String) : String :=
  let docName := jsBasename docPath
  match readDoc docPath with
  | some content => "- **" ++ docName ++ "**: " ++ summarizeDocument content docName ++ "\n"
  | none => "- **" ++ docName ++ "**: Could not read file\n"

/-- `processPhase1(projectPath, keyDocs)` — the Conceptual phase text. -/
def processPhase1 (readDoc : String → Option String) (_projectPath : String)
    (keyDocs : List String) : String :=
  let base := "## Phase 1: Conceptual Understanding\n\n" ++
    "**Key Documents Found:** " ++ toString keyDocs.length ++ "\n"
  if keyDocs.length > 0 then
    base ++ "\n**Document Analysis:**\n" ++
    String.join ((jsSliceTo 5 keyDocs).map (phase1DocLine readDoc)) ++
    "\n**Project Understanding:**\n" ++
    "- Project appears to have structured documentation\n" ++
    "- Key architectural decisions likely documented\n" ++
    "- Development guidelines and processes defined\n"
  else
    base ++
    "\n**Note:** No key documentation files found. Project may lack comprehensive documentation.\n"

/-- `processPhase2(projectPath, structure)` — the Structural phase
text: the rendered directory listing verbatim plus substring-derived
observations. -/
def processPhase2 (_projectPath : String) (structureText : String) : String :=
  "## Phase 2: Structural Scaffolding\n\n" ++
  "**Project Structure:**\n" ++
  "```\n" ++ structureText ++ "\n```\n\n" ++
  "**Structural Insights:**\n" ++
  (if jsIncludes structureText "src/" then
    "- Standard source code organization with `src/` directory\n" else "") ++
  (if jsIncludes structureText "package.json" then
    "- Node.js/JavaScript project with npm package management\n" else "") ++
  (if jsIncludes structureText "requirements.txt" || jsIncludes structureText ".py" then
    "- Python project detected\n" else "") ++
  (if jsIncludes structureText "Cargo.toml" then
    "- Rust project detected\n" else "") ++
  (if jsIncludes structureText "pom.xml" || jsIncludes structureText "build.gradle" then
    "- Java project with build system\n" else "")

/-! ### Phase 3 — In-Depth Code Analysis -/

/-- The code-structure overview block. -/
def phase3Overview (cs : CodeStructure) : String :=
  "**📊 Code Structure Overview:**\n" ++
  "- **Total Files:** " ++ toString cs.totalFiles ++ "\n" ++
  "- **Total Lines of Code:** " ++ natToLocaleString cs.totalLines ++ "\n" ++
  "- **Total Size:** " ++ toFixed1KB cs.totalSize ++ " KB\n" ++
  "- **Complexity Level:** " ++ cs.complexity ++ "\n\n"

/-- The files-by-type block. -/
def phase3FilesByType (cs : CodeStructure) : String :=
  "**📁 Files by Type:**\n" ++
  String.join (cs.filesByExtension.map (fun kv =>
    "- **" ++ kv.1 ++ "**: " ++ toString kv.2.count ++ " files, " ++
    toString kv.2.totalLines ++ " lines\n")) ++ "\n"

/-- The largest-files block (omitted when the ranking is empty). -/
def phase3LargestFiles (cs : CodeStructure) : String :=
  if cs.largestFiles.length > 0 then
    "**📋 Largest Files:**\n" ++
    String.join (cs.largestFiles.map (fun f =>
      "- **" ++ f.path ++ "**: " ++ toString f.lines ++ " lines (" ++
      toFixed1KB f.size ++ " KB)\n")) ++ "\n"
  else ""

/-- The external-dependencies sub-block of the dependencies section. -/
def phase3ExternalSub (externalDeps : List String) : String :=
  if externalDeps.length > 0 then
    "*External Dependencies:*\n" ++
    String.join ((jsSliceTo 15 externalDeps).map (fun dep => "- " ++ dep ++ "\n")) ++
    (if externalDeps.length > 15 then
      "- ... and " ++ toString (externalDeps.length - 15) ++ " more external dependencies\n"
     else "")
  else ""

/-- The internal-imports sub-block of the dependencies section. -/
def phase3InternalSub (internalDeps : List String) : String :=
  if internalDeps.length > 0 then
    "*Internal Imports:*\n" ++
    String.join ((jsSliceTo 10 internalDeps).map (fun dep => "- " ++ dep ++ "\n")) ++
    (if internalDeps.length > 10 then
      "- ... and " ++ toString (internalDeps.length - 10) ++ " more internal imports\n"
     else "")
  else ""

/-- The dependencies section: split into external (no leading dot) and
internal (leading dot) dependencies. -/
def phase3Dependencies (dependencies : List String) : String :=
  "**🔗 Dependencies & Imports:**\n" ++
  (if dependencies.length > 0 then
    phase3ExternalSub (dependencies.filter (fun dep => !(jsStartsWith dep "."))) ++
    phase3InternalSub (dependencies.filter (fun dep => jsStartsWith dep "."))
   else "- No external dependencies detected\n") ++ "\n"

/-- The entry-points section. -/
def phase3EntryPoints (entryPoints : List String) : String :=
  "**🚪 Entry Points:**\n" ++
  (if entryPoints.length > 0 then
    String.join (entryPoints.map (fun e => "- **" ++ e ++ "**\n"))
   else "- No clear entry points identified\n") ++ "\n"

/-- Append one element to its type's group (JS
`acc[element.type].push(element)` over a string-keyed object whose keys
appear in first-touch order). -/
def addToTypeGroup (acc : List (String × List CodeElement)) (e : CodeElement) :
    List (String × List CodeElement) :=
  match acc with
  | [] => [(e.type, [e])]
  | (k, es) :: tl =>
    if k = e.type then (k, es ++ [e]) :: tl else (k, es) :: addToTypeGroup tl e

/-- The `reduce` grouping of code elements by their `type` field. -/
def groupElementsByType (elems : List CodeElement) : List (String × List CodeElement) :=
  elems.foldl addToTypeGroup []

/-- One rendered code element. -/
def renderElement (element : CodeElement) : String :=
  "- **" ++ element.name ++ "**" ++
  (if element.file ≠ "" then " (" ++ element.file ++ ")" else "") ++
  (if optTruthy element.isAsync then " [async]" else "") ++
  (if optTruthy element.isExported then " [exported]" else "") ++
  (match element.methods with
   | some ms =>
     if ms.length > 0 then
       " - Methods: " ++ String.intercalate ", " (jsSliceTo 3 ms) ++
       (if ms.length > 3 then ", +" ++ toString (ms.length - 3) ++ " more" else "")
     else ""
   | none => "")

/-- One type group of the code-elements section. -/
def phase3ElementGroup (typeName : String) (elements : List CodeElement) : String :=
  "*" ++ jsCapitalize typeName ++ "s (" ++ toString elements.length ++ "):*\n" ++
  String.join ((jsSliceTo 10 elements).map (fun e => renderElement e ++ "\n")) ++
  (if elements.length > 10 then
    "- ... and " ++ toString (elements.length - 10) ++ " more " ++ typeName ++ "s\n"
   else "") ++ "\n"

/-- The code-elements section. -/
def phase3Elements (functionsAndClasses : List CodeElement) : String :=
  "**⚙️ Code Elements Detected:**\n" ++
  (if functionsAndClasses.length > 0 then
    String.join ((groupElementsByType functionsAndClasses).map (fun kv =>
      phase3ElementGroup kv.1 kv.2))
   else "- No code elements detected\n\n")

/-- The architectural-patterns section (de-duplicated for display). -/
def phase3Architecture (architecture : List String) : String :=
  "**🏗️ Architectural Patterns:**\n" ++
  (if architecture.length > 0 then
    String.join ((dedupFirst architecture).map (fun p => "- " ++ p ++ "\n"))
   else "- No specific architectural patterns detected\n") ++ "\n"

/-- The programming-patterns section (de-duplicated for display). -/
def phase3Patterns (patterns : List String) : String :=
  "**🎨 Programming Patterns:**\n" ++
  (if patterns.length > 0 then
    String.join ((dedupFirst patterns).map (fun p => "- " ++ p ++ "\n"))
   else "- No specific programming patterns detected\n") ++ "\n"

/-- The per-file detail of the detailed-file-analysis section (files of
more than 50 lines only). -/
def phase3FileDetail (file : FileContent) : String :=
  if file.lines > 50 then
    "*" ++ file.path ++ "* (" ++ toString file.lines ++ " lines):\n" ++
    (let lines := jsSplitNl file.content
     let meaningful := jsSliceTo 5 (lines.filter (fun line =>
       !(jsTrim line).isEmpty && !(jsStartsWith (jsTrim line) "//") &&
       !(jsStartsWith (jsTrim line) "*")))
     match meaningful with
     | [] => ""
     | l1 :: rest =>
       "  Preview: " ++ jsTrim l1 ++ "\n" ++
       (match rest with
        | [] => ""
        | l2 :: _ => "           " ++ jsTrim l2 ++ "\n")) ++ "\n"
  else ""

/-- The detailed-file-analysis section (omitted when no files). -/
def phase3FileDetails (fileContents : List FileContent) : String :=
  if fileContents.length > 0 then
    "**📄 Detailed File Analysis:**\n" ++
    String.join (fileContents.map phase3FileDetail)
  else ""

/-- `processPhase3(projectPath, codeAnalysis)` — the Analysis phase
text, assembled in source order. -/
def processPhase3 (_projectPath : String) (codeAnalysis : CodeAnalysisResult) : String :=
  "## Phase 3: In-Depth Code Analysis\n\n" ++
  phase3Overview codeAnalysis.codeStructure ++
  phase3FilesByType codeAnalysis.codeStructure ++
  phase3LargestFiles codeAnalysis.codeStructure ++
  phase3Dependencies codeAnalysis.dependencies ++
  phase3EntryPoints codeAnalysis.entryPoints ++
  phase3Elements codeAnalysis.functionsAndClasses ++
  phase3Architecture codeAnalysis.architecture ++
  phase3Patterns codeAnalysis.patterns ++
  phase3FileDetails codeAnalysis.fileContents

/-! ### Phase 4 — Synthesis -/

/-- `processPhase4(projectPath, analysisHistory)` — the Synthesis
text: project name, history length, the phases of the last three
History entries, and fixed recommendation/next-step text. -/
def processPhase4 (projectPath : String) (analysisHistory : List CodebaseAnalysis) :
    String :=
  "## Phase 4: Synthesis and Reporting\n\n" ++
  "**Project Summary:**\n" ++
  "- **Project**: " ++ jsBasename projectPath ++ "\n" ++
  "- **Analysis Phases Completed**: " ++ toString analysisHistory.length ++ "\n" ++
  "\n**Key Findings:**\n" ++
  String.join ((jsSliceLast 3 analysisHistory).map (fun a =>
    "- **" ++ jsCapitalize a.phase ++ " Phase**: Completed successfully\n")) ++
  "\n**Recommendations for New Developers:**\n" ++
  "- Start by reviewing the key documentation files identified\n" ++
  "- Understand the project structure before diving into code\n" ++
  "- Focus on entry points to understand application flow\n" ++
  "- Pay attention to the architectural patterns in use\n" ++
  "\n**Next Steps:**\n" ++
  "- Set up development environment according to project requirements\n" ++
  "- Run the application and explore its functionality\n" ++
  "- Identify areas for contribution or improvement\n"

/-! ### The comprehensive report -/

/-- `analysisHistory.find(a => a.phase === p)`. -/
def findPhaseRecord (hist : List CodebaseAnalysis) (p : String) :
    Option CodebaseAnalysis :=
  hist.find? (fun a => a.phase = p)

/-- `rec?.findings.includes(needle)` with JS optional chaining
(`undefined` is falsy). -/
def optFindingsInclude (rec : Option CodebaseAnalysis) (needle : String) : Bool :=
  match rec with
  | none => false
  | some a => jsIncludes a.findings needle

/-- The `hasKeyDocs` flag of `generateComprehensiveReport`: the
conceptual findings contain "Key Documents Found:" but not
"Key Documents Found: 0". -/
def compReportHasKeyDocs (hist : List CodebaseAnalysis) : Bool :=
  let conceptualAnalysis := findPhaseRecord hist "conceptual"
  optFindingsInclude conceptualAnalysis "Key Documents Found:" &&
  !(optFindingsInclude conceptualAnalysis "Key Documents Found: 0")

/-- The `hasStructure` flag. -/
def compReportHasStructure (hist : List CodebaseAnalysis) : Bool :=
  let structuralAnalysis := findPhaseRecord hist "structural"
  optFindingsInclude structuralAnalysis "src/" ||
  optFindingsInclude structuralAnalysis "Standard source code organization"

/-- The project-type line of the executive summary. -/
def compReportProjectTypeLine (hist : List CodebaseAnalysis) : String :=
  let structuralAnalysis := findPhaseRecord hist "structural"
  "**Project Type:** " ++
  (if optFindingsInclude structuralAnalysis "Node.js/JavaScript" then
    "Node.js/TypeScript Application\n"
   else if optFindingsInclude structuralAnalysis "Python" then "Python Application\n"
   else if optFindingsInclude structuralAnalysis "Java" then "Java Application\n"
   else if optFindingsInclude structuralAnalysis "Rust" then "Rust Application\n"
   else "Multi-language or Unknown Type\n")

/-- The documentation-quality line of the executive summary. -/
def compReportDocQualityLine (hist : List CodebaseAnalysis) : String :=
  "**Documentation Quality:** " ++
  (if compReportHasKeyDocs hist then "Well Documented ✅\n" else "Needs Improvement ⚠️\n")

/-- The code-organization line. -/
def compReportCodeOrgLine (hist : List CodebaseAnalysis) : String :=
  "**Code Organization:** " ++
  (if compReportHasStructure hist then "Well Organized ✅\n" else "Could Be Improved ⚠️\n")

/-- The complexity line: counts the dash-space bullets of the Analysis
findings. -/
def compReportComplexityLine (hist : List CodebaseAnalysis) : String :=
  let dependencyCount :=
    match findPhaseRecord hist "analysis" with
    | none => 0
    | some a => countDashSpace a.findings
  "**Complexity Level:** " ++
  (if dependencyCount > 15 then "High (Many Dependencies) 🔴\n"
   else if dependencyCount > 5 then "Medium (Moderate Dependencies) 🟡\n"
   else "Low (Few Dependencies) 🟢\n")

/-- `/Entry Points:\*\*\n([\s\S]*?)\n\*\*/` — the entry-points block of
the rendered Analysis findings. -/
def entryPointsBlockRE : RE :=
  reSeq [reLit "Entry Points:**\n", RE.grp 1 (RE.starL reAnyChar), reLit "\n**"]

/-- The optional examine-entry-points checklist line. -/
def compReportEntryPointsLine (hist : List CodebaseAnalysis) : String :=
  match findPhaseRecord hist "analysis" with
  | none => ""
  | some a =>
    match reFirst entryPointsBlockRE a.findings with
    | none => ""
    | some fm =>
      match fm.2 1 with
      | none => ""
      | some g =>
        if g ≠ "" && !(jsIncludes g "No clear entry points") then
          "- [ ] Start by examining the main entry points identified\n"
        else ""

/-- The quick-start checklist of the onboarding guide. -/
def compReportChecklist (hist : List CodebaseAnalysis) : String :=
  let structuralAnalysis := findPhaseRecord hist "structural"
  "### Quick Start Checklist:\n" ++
  "- [ ] Clone the repository\n" ++
  (if optFindingsInclude structuralAnalysis "package.json" then
    "- [ ] Run `npm install` to install dependencies\n" ++
    "- [ ] Check `package.json` for available scripts\n"
   else if optFindingsInclude structuralAnalysis "requirements.txt" then
    "- [ ] Run `pip install -r requirements.txt`\n"
   else if optFindingsInclude structuralAnalysis "Cargo.toml" then
    "- [ ] Run `cargo build` to compile\n"
   else "") ++
  compReportEntryPointsLine hist ++
  "- [ ] Read the key documentation files\n" ++
  "- [ ] Understand the project structure\n" ++
  "- [ ] Set up your development environment\n"

/-- The project-health-indicators section body. -/
def compReportHealth (hist : List CodebaseAnalysis) : String :=
  let hasKeyDocs := compReportHasKeyDocs hist
  let hasStructure := compReportHasStructure hist
  let codeAnalysis := findPhaseRecord hist "analysis"
  let hasTests := optFindingsInclude codeAnalysis "Testing"
  let hasAsync := optFindingsInclude codeAnalysis "Async/Promises"
  (if hasKeyDocs then "✅ Good Documentation\n" else "") ++
  (if hasStructure then "✅ Organized Structure\n" else "") ++
  (if hasTests then "✅ Testing Framework\n" else "") ++
  (if hasAsync then "✅ Modern Async Patterns\n" else "") ++
  (if !hasKeyDocs then "⚠️ Missing Key Documentation\n" else "") ++
  (if !hasStructure then "⚠️ Unclear Project Organization\n" else "") ++
  (if !hasTests then "⚠️ No Testing Framework Detected\n" else "")

/-- `generateComprehensiveReport(projectPath, allPhaseFindings,
analysisHistory)`; `today` is the `new Date().toISOString().split('T')[0]`
oracle. -/
def generateComprehensiveReport (projectPath allPhaseFindings : String)
    (analysisHistory : List CodebaseAnalysis) (today : String) : String :=
  "# 📊 COMPREHENSIVE CODEBASE ANALYSIS REPORT\n\n" ++
  "**Project:** " ++ jsBasename projectPath ++ "\n" ++
  "**Analysis Date:** " ++ today ++ "\n" ++
  "**Total Phases Completed:** 4\n\n" ++
  "---\n\n" ++
  allPhaseFindings ++
  "## 🎯 EXECUTIVE SUMMARY\n\n" ++
  compReportProjectTypeLine analysisHistory ++
  compReportDocQualityLine analysisHistory ++
  compReportCodeOrgLine analysisHistory ++
  compReportComplexityLine analysisHistory ++
  "\n## 🚀 DEVELOPER ONBOARDING GUIDE\n\n" ++
  compReportChecklist analysisHistory ++
  "\n## 📈 PROJECT HEALTH INDICATORS\n\n" ++
  compReportHealth analysisHistory ++
  "\n## 🔍 DETAILED FINDINGS SUMMARY\n\n" ++
  "This comprehensive analysis examined your codebase through four systematic phases:\n\n" ++
  "1. **Conceptual Understanding** - Analyzed documentation and project goals\n" ++
  "2. **Structural Scaffolding** - Mapped project organization and file structure\n" ++
  "3. **In-Depth Code Analysis** - Examined dependencies, patterns, and entry points\n" ++
  "4. **Synthesis & Reporting** - Compiled insights and recommendations\n\n" ++
  "**Total Analysis Time:** " ++ toString analysisHistory.length ++ " phases completed\n" ++
  "**Recommendation:** This codebase is " ++
  (if compReportHasKeyDocs analysisHistory && compReportHasStructure analysisHistory then
    "ready for development"
   else "suitable for development with some improvements needed") ++ "\n\n" ++
  "---\n" ++
  "*Analysis generated by Codebase Navigator v0.1.0*\n"

/-! ## server.ts — the Pipeline Orchestrator

Filesystem- and clock-dependent subroutines enter the orchestrator as
oracle components of a `World` record: `fs.existsSync`, the resolved
repository root, the key-document list, the rendered directory listing,
the code-file enumeration, file reads and timestamps.  (The intrinsic
logic of `findRepositoryRoot` and `findKeyDocs` is verified separately
on the explicit path/tree models above.)  Thrown exceptions become
`Except.error`.  The `try/catch` of `processCodebaseAnalysis` catches
only what the `try` block itself throws or awaits: the single-phase
path is `return this.runSinglePhase(...)` **without** `await`, so when
that promise rejects (an unrecognized phase) the rejection bypasses the
`catch` and the method's own promise rejects.  The embedding therefore
distinguishes a synchronous throw inside the `try` (converted into the
failure envelope) from the settled state of the returned promise
(`Except String ToolResponse`, whose `.error` escapes uncaught).
Every `throw` in the source occurs before the first history push of
the invocation, so the instance history is unchanged on every failure
path, caught or not. -/

/-- The effectful environment of one invocation. -/
structure World where
  existsSync : String → Bool
  repoRoot : String → String
  keyDocs : String → List String
  structureOf : String → String
  codeFiles : String → List String
  readFile : String → String
  readDoc : String → Option String
  now : String
  today : String

/-- The `{} as any` placeholder for `codeStructure`, always overwritten
before the result is returned. -/
def emptyCodeStructure : CodeStructure := ⟨0, 0, 0, [], [], ""⟩

/-- The per-file loop body of `analyzeCodeFiles`, appending to each
result list in source order. -/
def analyzeCodeFilesStep (w : World) (projectPath : String)
    (acc : CodeAnalysisResult) (filePath : String) : CodeAnalysisResult :=
  let content := w.readFile filePath
  let relativePath := pathRelative projectPath filePath
  let fileSize := content.length
  let lineCount := (jsSplitNl content).length
  { acc with
    fileContents := acc.fileContents ++
      [⟨relativePath, content, fileSize, lineCount, extname filePath⟩],
    dependencies := acc.dependencies ++ extractImports content (extname filePath),
    entryPoints := acc.entryPoints ++
      (if isEntryPoint content relativePath then [relativePath] else []),
    patterns := acc.patterns ++ detectPatterns content relativePath,
    functionsAndClasses := acc.functionsAndClasses ++
      extractCodeElements content relativePath,
    architecture := acc.architecture ++ analyzeArchitecture content relativePath }

/-- `analyzeCodeFiles(projectPath)`: analyze every discovered file,
build the structure map (whose in-place sort reorders `fileContents`),
then de-duplicate the dependency/entry-point/pattern/architecture lists
— and only those. -/
def analyzeCodeFiles (w : World) (projectPath : String) : CodeAnalysisResult :=
  let codeFiles := w.codeFiles projectPath
  let a := codeFiles.foldl (analyzeCodeFilesStep w projectPath)
    ⟨[], [], [], emptyCodeStructure, [], [], []⟩
  let built := buildCodeStructureMap a.fileContents
  { a with
    codeStructure := built.1,
    fileContents := built.2,
    dependencies := dedupFirst a.dependencies,
    entryPoints := dedupFirst a.entryPoints,
    patterns := dedupFirst a.patterns,
    architecture := dedupFirst a.architecture }

/-- The JSON object serialised into the tool response text: a success
shape (single-phase or comprehensive) or the failure shape
`{error, status}`. -/
inductive ResponsePayload where
  | success (phase : String) (projectPath : String)
      (repositoryRoot providedPath : Option String) (findings : String)
      (nextPhaseNeeded : Bool) (analysisHistoryLength : Nat)
      (suggestedNextPhase : Option String) (completedPhases : Option (List String))
  | failure (error : String) (status : String)
deriving DecidableEq, Repr

/-- The tool-response envelope; `isError` is the optional flag, present
(true) exactly on the failure path. -/
structure ToolResponse where
  payload : ResponsePayload
  isError : Bool
deriving DecidableEq, Repr

/-- `getSuggestedNextPhase(currentPhase)`; `indexOf` yields `-1` for an
unknown phase, and `-1 < 3` selects `phaseOrder[0]`. -/
def getSuggestedNextPhase (currentPhase : String) : String :=
  let phaseOrder := ["conceptual", "structural", "analysis", "synthesis"]
  let currentIndex : Int :=
    match phaseOrder.findIdx? (fun p => p = currentPhase) with
    | some i => (i : Int)
    | none => -1
  if currentIndex < 3 then phaseOrder.getD (currentIndex + 1).toNat ""
  else "complete"

/-- `runSinglePhase`: render one phase, append one history record and
fulfil with the single-phase envelope; an unrecognized phase rejects
(`throw` at the `switch` default) before anything is appended.  The
result pairs the settled state of the returned promise with the
post-call state of the instance history. -/
def runSinglePhase (w : World) (hist : List CodebaseAnalysis)
    (projectPath phase : String) (repositoryRoot providedPath : Option String) :
    Except String ToolResponse × List CodebaseAnalysis :=
  let rendered : Except String (String × Bool) :=
    if phase = "conceptual" then
      .ok (processPhase1 w.readDoc projectPath (w.keyDocs projectPath), true)
    else if phase = "structural" then
      .ok (processPhase2 projectPath (w.structureOf projectPath), true)
    else if phase = "analysis" then
      .ok (processPhase3 projectPath (analyzeCodeFiles w projectPath), true)
    else if phase = "synthesis" then
      .ok (processPhase4 projectPath hist, false)
    else
      .error ("Invalid phase: " ++ phase)
  match rendered with
  | .error e => (.error e, hist)
  | .ok (findings, nextPhaseNeeded) =>
    let record : CodebaseAnalysis := ⟨projectPath, phase, findings, nextPhaseNeeded, w.now⟩
    let hist2 := hist ++ [record]
    (.ok ⟨.success phase projectPath repositoryRoot providedPath findings
      nextPhaseNeeded hist2.length (some (getSuggestedNextPhase phase)) none, false⟩,
      hist2)

/-- The tool input: `projectPath` and `phase` as optionally-present
strings (`none` models an absent property). -/
structure NavInput where
  projectPath : Option String
  phase : Option String
deriving DecidableEq, Repr

/-- The `try` block of `processCodebaseAnalysis`: validate the input,
resolve the repository root, then run one phase or all four (appending
one record each and deriving the comprehensive report).  The outer
`Except` is a synchronous `throw` inside the `try` (which the `catch`
handles); the value it returns is the promise of the invocation
together with the post-call history — for the single-phase path this is
the **un-awaited** result of `runSinglePhase`, whose rejection the
`catch` never sees.  The all-phases loop awaits every step inside the
`try` and none of its callees throws.  The source passes `keyDocs` as
an extra fourth argument to `generateComprehensiveReport`, which
declares only three parameters and ignores it at runtime. -/
def processAnalysisCore (w : World) (hist : List CodebaseAnalysis) (input : NavInput) :
    Except String (Except String ToolResponse × List CodebaseAnalysis) :=
  let invalid :=
    match input.projectPath with
    | none => true
    | some p => p = "" || !(w.existsSync p)
  if invalid then .error "Invalid or non-existent project path"
  else
    let providedPath := input.projectPath.getD ""
    let requestedPhase :=
      match input.phase with
      | none => "all"
      | some s => if s = "" then "all" else s
    let repositoryRoot := w.repoRoot providedPath
    let projectPath := repositoryRoot
    let rootOpt := if repositoryRoot ≠ providedPath then some repositoryRoot else none
    let providedOpt := if repositoryRoot ≠ providedPath then some providedPath else none
    if requestedPhase ≠ "all" then
      .ok (runSinglePhase w hist projectPath requestedPhase rootOpt providedOpt)
    else
      let keyDocs := w.keyDocs projectPath
      let f1 := processPhase1 w.readDoc projectPath keyDocs
      let h1 := hist ++ [⟨projectPath, "conceptual", f1, true, w.now⟩]
      let f2 := processPhase2 projectPath (w.structureOf projectPath)
      let h2 := h1 ++ [⟨projectPath, "structural", f2, true, w.now⟩]
      let f3 := processPhase3 projectPath (analyzeCodeFiles w projectPath)
      let h3 := h2 ++ [⟨projectPath, "analysis", f3, true, w.now⟩]
      let f4 := processPhase4 projectPath h3
      let h4 := h3 ++ [⟨projectPath, "synthesis", f4, false, w.now⟩]
      let comprehensiveReport :=
        f1 ++ "\n\n" ++ f2 ++ "\n\n" ++ f3 ++ "\n\n" ++ f4 ++ "\n\n"
      let finalReport := generateComprehensiveReport projectPath comprehensiveReport h4 w.today
      .ok (.ok ⟨.success "comprehensive" projectPath rootOpt providedOpt finalReport false
        h4.length none (some ["conceptual", "structural", "analysis", "synthesis"]), false⟩,
        h4)

/-- `processCodebaseAnalysis(input)`: the `try/catch` boundary.  A
synchronous `throw` inside the `try` (the invalid-path check) becomes
the `{error, status: 'failed'}` payload with the `isError` flag; but
the single-phase path returns `this.runSinglePhase(...)` without
`await`, so a rejection of that promise bypasses the `catch` and the
method's own promise rejects (`.error` in the first component — an
uncaught failure at the protocol boundary, never an envelope).  The
second component is the instance history after the call, unchanged on
every failure path since all throws precede any push. -/
def processCodebaseAnalysis (w : World) (hist : List CodebaseAnalysis)
    (input : NavInput) : Except String ToolResponse × List CodebaseAnalysis :=
  match processAnalysisCore w hist input with
  | .ok r => r
  | .error msg => (.ok ⟨.failure msg "failed", true⟩, hist)

/-! ## Helper lemmas for the claim theorems -/

theorem append_ne_empty_right (a b : String) (hb : b ≠ "") : a ++ b ≠ "" := by
  intro h
  apply hb
  have hdata := congrArg String.data h
  rw [String.data_append] at hdata
  have hnil : b.data = [] := (List.append_eq_nil.mp (by simpa using hdata)).2
  exact String.ext (by rw [hnil])

/-- The dependency and code-element lists produced by the per-file
fold of `analyzeCodeFiles` are the concatenations over the files. -/
theorem analyzeFold_fields (w : World) (p : String) (files : List String) :
    ∀ acc : CodeAnalysisResult,
    ((files.foldl (analyzeCodeFilesStep w p) acc).dependencies =
      acc.dependencies ++
        files.flatMap (fun fp => extractImports (w.readFile fp) (extname fp))) ∧
    ((files.foldl (analyzeCodeFilesStep w p) acc).functionsAndClasses =
      acc.functionsAndClasses ++
        files.flatMap (fun fp =>
          extractCodeElements (w.readFile fp) (pathRelative p fp))) := by
  induction files with
  | nil => intro acc; simp
  | cons f fs ih =>
    intro acc
    rcases ih (analyzeCodeFilesStep w p acc f) with ⟨h1, h2⟩
    constructor
    · rw [List.foldl_cons, h1]
      simp [analyzeCodeFilesStep]
    · rw [List.foldl_cons, h2]
      simp [analyzeCodeFilesStep]

/-- Occurrence counting distributes over a concatenation of per-file
lists. -/
theorem count_flatMap [DecidableEq β] (f : α → List β) (l : List α) (e : β) :
    (l.flatMap f).count e = (l.map (fun x => (f x).count e)).sum := by
  induction l with
  | nil => simp
  | cons x xs ih => simp [List.flatMap_cons, List.count_append, ih]

/-! ## The claims -/

/-- A single 1000-line file record, the complexity boundary case. -/
def c1File : FileContent := ⟨"a.ts", "", 10, 1000, ".ts"⟩

/-- C1, counterexample: a `FileRecord` set totalling exactly 1000 lines
is classified `Low`, not `Medium` — the source tests `totalLines >
1000`, so 1000 itself falls into the lowest tier, contradicting the
claim's "one totalling 1000 lines is classified Medium". -/
theorem c1_counterexample :
    (buildCodeStructureMap [c1File]).1.totalLines = 1000 ∧
    (buildCodeStructureMap [c1File]).1.complexity = "Low" ∧
    (buildCodeStructureMap [c1File]).1.complexity ≠ "Medium" := by
  decide

/-- C1 (amended): the Structure Aggregator classifies the summed total
line count with strict thresholds — any total of at most 1000 lines is
`Low` (999 and 1000 both), totals from 1001 through 5000 are `Medium`,
and totals above 5000 are `High` (5001 is). -/
theorem c1_complexity_boundaries (files : List FileContent) :
    ((buildCodeStructureMap files).1.totalLines ≤ 1000 →
      (buildCodeStructureMap files).1.complexity = "Low") ∧
    (1000 < (buildCodeStructureMap files).1.totalLines →
      (buildCodeStructureMap files).1.totalLines ≤ 5000 →
      (buildCodeStructureMap files).1.complexity = "Medium") ∧
    (5000 < (buildCodeStructureMap files).1.totalLines →
      (buildCodeStructureMap files).1.complexity = "High") := by
  have hT : (buildCodeStructureMap files).1.totalLines =
      (files.map (fun f => f.lines)).sum := rfl
  have hC : (buildCodeStructureMap files).1.complexity =
      (if (files.map (fun f => f.lines)).sum > 5000 then "High"
       else if (files.map (fun f => f.lines)).sum > 1000 then "Medium" else "Low") := rfl
  refine ⟨?_, ?_, ?_⟩ <;> rw [hT, hC] <;> intros <;>
    first
      | (rw [if_neg (by omega), if_neg (by omega)])
      | (rw [if_neg (by omega), if_pos (by omega)])
      | (rw [if_pos (by omega)])

/-- C1, witness: the amended boundaries evaluated at 999 and 5001
total lines. -/
theorem c1_witness :
    (buildCodeStructureMap [(⟨"a.ts", "", 10, 999, ".ts"⟩ : FileContent)]).1.complexity
        = "Low" ∧
    (buildCodeStructureMap [(⟨"a.ts", "", 10, 5001, ".ts"⟩ : FileContent)]).1.complexity
        = "High" :=
  ⟨(c1_complexity_boundaries [⟨"a.ts", "", 10, 999, ".ts"⟩]).1 (by decide),
   (c1_complexity_boundaries [⟨"a.ts", "", 10, 5001, ".ts"⟩]).2.2 (by decide)⟩

/-- Two files in ascending line order — the Structure Aggregator's
in-place sort will reverse them. -/
def c7FileA : FileContent := ⟨"a.ts", "", 1, 1, ".ts"⟩

/-- The larger companion file of `c7FileA`. -/
def c7FileB : FileContent := ⟨"b.ts", "", 2, 2, ".ts"⟩

/-- C7, counterexample: `buildCodeStructureMap` does **not** leave its
input array unchanged — `fileContents.sort(...)` sorts the argument
array in place, so after the call on `[a (1 line), b (2 lines)]` the
array reads `[b, a]`. -/
theorem c7_counterexample :
    (buildCodeStructureMap [c7FileA, c7FileB]).2 ≠ [c7FileA, c7FileB] ∧
    (buildCodeStructureMap [c7FileA, c7FileB]).2 = [c7FileB, c7FileA] := by
  decide

/-- C7 (amended): the summary returned by `buildCodeStructureMap` is a
pure function of the input list, but the call reorders the input array
in place: afterwards it holds the same elements (a permutation) sorted
stably in descending line order. -/
theorem c7_structure_map_inplace_sort (files : List FileContent) :
    ((buildCodeStructureMap files).2).Perm files ∧
    ((buildCodeStructureMap files).2).Pairwise (fun a b => b.lines ≤ a.lines) := by
  have h2 : (buildCodeStructureMap files).2 = sortDescBy (fun f => f.lines) files := rfl
  rw [h2]
  exact ⟨sortDescBy_perm _ files, sortDescBy_sorted _ files⟩

/-- An oracle filesystem whose only entry is a `.git` marker directly
in the filesystem root. -/
def c2RootFsys : List String → Bool := fun p => decide (p = [".git"])

/-- The C2 claim exactly as stated, over the path model: for every
filesystem, every directory `D` containing `.git` and every proper
descendant of `D` whose intermediate directories (the directories
strictly below `D` on the way down, the start included) contain no
marker, resolution returns `D`. -/
def c2ClaimAsStated : Prop :=
  ∀ (fsys : List String → Bool) (D suffix : List String),
    suffix ≠ [] →
    fsys (D ++ [".git"]) = true →
    (∀ k, 0 < k → k ≤ suffix.length → hasMarker fsys (D ++ suffix.take k) = false) →
    findRepositoryRoot fsys (D ++ suffix) = D

/-- C2, counterexample: the claim fails when `D` is the filesystem root
itself — the `while (currentPath !== rootPath)` loop never examines the
root, so with `.git` in `/` and start `/a` the function returns `/a`,
not `/`. -/
theorem c2_counterexample : ¬ c2ClaimAsStated := by
  intro h
  have h2 := h c2RootFsys [] ["a"] (by decide) (by decide)
    (fun k hk hk2 => by
      have hk1 : k = 1 := by simpa using Nat.le_antisymm hk2 hk
      subst hk1; decide)
  revert h2
  decide

/-- Helper: one unfolding of the repository-root loop on a non-root
path. -/
theorem findRepoRootLoop_step (fsys : List String → Bool) (sp : List String)
    (fuel : Nat) (p : List String) (hp : p ≠ []) :
    findRepoRootLoop fsys sp (fuel + 1) p =
      if hasMarker fsys p then p else findRepoRootLoop fsys sp fuel p.dropLast := by
  cases p with
  | nil => exact absurd rfl hp
  | cons a l => rfl

/-- Helper: the loop returns the nearest marker-bearing directory when
one exists strictly below the root. -/
theorem findRepoRootLoop_finds (fsys : List String → Bool) (sp D : List String)
    (hD : D ≠ []) (hm : hasMarker fsys D = true) :
    ∀ suffix : List String, ∀ fuel : Nat, suffix.length < fuel →
    (∀ k, 0 < k → k ≤ suffix.length → hasMarker fsys (D ++ suffix.take k) = false) →
    findRepoRootLoop fsys sp fuel (D ++ suffix) = D := by
  intro suffix
  induction suffix using List.reverseRecOn with
  | nil =>
    intro fuel hfuel _
    obtain ⟨f, rfl⟩ : ∃ f, fuel = f + 1 := ⟨fuel - 1, by omega⟩
    rw [List.append_nil, findRepoRootLoop_step fsys sp f D hD, if_pos hm]
  | append_singleton init a ih =>
    intro fuel hfuel hno
    obtain ⟨f, rfl⟩ : ∃ f, fuel = f + 1 := ⟨fuel - 1, by omega⟩
    have hne : D ++ (init ++ [a]) ≠ [] := by simp
    rw [findRepoRootLoop_step fsys sp f _ hne]
    have hfull : hasMarker fsys (D ++ (init ++ [a])) = false := by
      have := hno (init ++ [a]).length (by simp) le_rfl
      rwa [List.take_length] at this
    rw [if_neg (by simp [hfull])]
    have hdrop : (D ++ (init ++ [a])).dropLast = D ++ init := by
      rw [← List.append_assoc, List.dropLast_concat]
    rw [hdrop]
    apply ih f (by simp at hfuel ⊢; omega)
    intro k hk hk2
    have := hno k hk (by simp; omega)
    rwa [List.take_append_of_le_length hk2] at this

/-- Helper: when no directory from the start path up to (but not
including) the filesystem root carries a marker, the loop falls off the
root and yields the original start path. -/
theorem findRepoRootLoop_not_found (fsys : List String → Bool) (sp : List String) :
    ∀ fuel : Nat, ∀ p : List String,
    (∀ k, 0 < k → k ≤ p.length → hasMarker fsys (p.take k) = false) →
    findRepoRootLoop fsys sp fuel p = sp := by
  intro fuel
  induction fuel with
  | zero => intro p _; rfl
  | succ f ih =>
    intro p hno
    cases hp : p with
    | nil => rfl
    | cons a l =>
      rw [← hp, findRepoRootLoop_step fsys sp f p (by simp [hp])]
      have hfull : hasMarker fsys p = false := by
        have := hno p.length (by simp [hp]) le_rfl
        rwa [List.take_length] at this
      rw [if_neg (by simp [hfull])]
      apply ih
      intro k hk hk2
      rw [List.length_dropLast] at hk2
      have hdl : p.dropLast = p.take (p.length - 1) := List.dropLast_eq_take p
      rw [hdl, List.take_take]
      have hmin : min k (p.length - 1) = k := by omega
      rw [hmin]
      exact hno k hk (by omega)

/-- C2 (amended): over the segment-path model of the resolver — (i) for
every **non-root** directory `D` carrying any repository marker
(`.git` included), resolving from `D` itself or from any descendant of
`D` whose directories strictly below `D` carry no marker returns `D`
(so the nearest marker-bearing directory wins and marker priority never
reaches across directories); and (ii) when no directory from the start
path up to but excluding the filesystem root carries a marker, the
original start path is returned unchanged — the function never fails.
The filesystem root itself is never examined, which is the one point on
which the claim as stated fails. -/
theorem c2_root_resolution (fsys : List String → Bool) :
    (∀ D suffix : List String, D ≠ [] →
      hasMarker fsys D = true →
      (∀ k, 0 < k → k ≤ suffix.length → hasMarker fsys (D ++ suffix.take k) = false) →
      findRepositoryRoot fsys (D ++ suffix) = D) ∧
    (∀ start : List String,
      (∀ k, 0 < k → k ≤ start.length → hasMarker fsys (start.take k) = false) →
      findRepositoryRoot fsys start = start) := by
  constructor
  · intro D suffix hD hm hno
    unfold findRepositoryRoot
    exact findRepoRootLoop_finds fsys _ D hD hm suffix _
      (by simp [List.length_append]; omega) hno
  · intro start hno
    unfold findRepositoryRoot
    exact findRepoRootLoop_not_found fsys start _ start hno

/-- An oracle filesystem with a single `.git` marker inside `/repo`. -/
def c2Fsys : List String → Bool := fun p => decide (p = ["repo", ".git"])

/-- C2, witness: with `.git` in `/repo`, resolving from `/repo/sub`
returns `/repo`; with no markers anywhere below the root, `/nowhere`
resolves to itself. -/
theorem c2_witness :
    findRepositoryRoot c2Fsys (["repo"] ++ ["sub"]) = ["repo"] ∧
    findRepositoryRoot c2Fsys ["nowhere"] = ["nowhere"] :=
  ⟨(c2_root_resolution c2Fsys).1 ["repo"] ["sub"] (by decide) (by decide)
      (fun k hk hk2 => by
        have hk1 : k = 1 := by simpa using Nat.le_antisymm hk2 hk
        subst hk1; decide),
   (c2_root_resolution c2Fsys).2 ["nowhere"]
      (fun k hk hk2 => by
        have hk1 : k = 1 := by simpa using Nat.le_antisymm hk2 hk
        subst hk1; decide)⟩

/-- A project whose root directly contains `README.md`. -/
def c3Tree1 : List FsEntry := [FsEntry.file "README.md"]

/-- A project whose root directly contains `readme.MD` (mixed-case
extension). -/
def c3Tree2 : List FsEntry := [FsEntry.file "readme.MD"]

/-- A project whose root directly contains `ReadMe.md` (mixed-case base
name, lowercase extension). -/
def c3Tree3 : List FsEntry := [FsEntry.file "ReadMe.md"]

/-- Wrap an entry in `n` nested directories named `d`. -/
def nestDirs : Nat → FsEntry → FsEntry
  | 0, e => e
  | n + 1, e => FsEntry.dir "d" [nestDirs n e]

/-- A `readme.md` buried under eleven directories — one past the depth
bound (directories at recursion depth 11 are cut off by `depth > 10`). -/
def c3DeepTree : List FsEntry := [nestDirs 11 (FsEntry.file "readme.md")]

/-- C3, counterexample: a file named `readme.MD` is **not** collected —
the guard `item.endsWith('.md')` is case-sensitive and runs before the
case-insensitive name patterns (which by themselves would accept the
name). -/
theorem c3_counterexample :
    findKeyDocs ["proj"] c3Tree2 = [] ∧
    keyPatternTest "readme.MD" = true ∧
    jsEndsWith "readme.MD" ".md" = false := by
  decide

/-- C3 (amended): the Document Locator matches the **base name**
case-insensitively but requires the literal lowercase extension `.md`:
`README.md` at depth 1 is collected, `ReadMe.md` is collected,
`readme.MD` is not, and a matching file nested past the depth bound is
not collected. -/
theorem c3_key_doc_matching :
    findKeyDocs ["proj"] c3Tree1 = [["proj", "README.md"]] ∧
    findKeyDocs ["proj"] c3Tree3 = [["proj", "ReadMe.md"]] ∧
    findKeyDocs ["proj"] c3Tree2 = [] ∧
    findKeyDocs ["proj"] c3DeepTree = [] := by
  decide

/-- The extensions with an `extractImports` strategy. -/
def supportedImportExtensions : List String :=
  [".js", ".ts", ".tsx", ".jsx", ".py", ".java", ".go", ".rs",
   ".cpp", ".c", ".h", ".hpp", ".php", ".rb"]

/-- C4: dependency extraction on JS/TS content — an ES-module import of
`left-pad` yields `"left-pad"`, a `require("pkg")` yields `"pkg"`, a
relative import yields nothing; for every content and extension no
extracted dependency starts with a dot; and any extension outside the
supported set yields the empty list. -/
theorem c4_dependency_extraction :
    extractImports "import \x7b x \x7d from \"left-pad\"" ".ts" = ["left-pad"] ∧
    extractImports "require(\"pkg\")" ".js" = ["pkg"] ∧
    extractImports "import x from \"./local\"" ".js" = [] ∧
    (∀ content extension imp, imp ∈ extractImports content extension →
      jsStartsWith imp "." = false) ∧
    (∀ content extension, extension ∉ supportedImportExtensions →
      extractImports content extension = []) := by
  refine ⟨by decide, by decide, by decide, ?_, ?_⟩
  · intro content extension imp hmem
    have hp := List.of_mem_filter hmem
    have := (Bool.and_eq_true _ _).mp hp
    simpa using this.2
  · intro content extension hnot
    have hne : ∀ e ∈ supportedImportExtensions, extension ≠ e :=
      fun e he heq => hnot (heq ▸ he)
    unfold extractImports extractImportsRaw
    rw [if_neg, if_neg, if_neg, if_neg, if_neg, if_neg, if_neg, if_neg]
    · rfl
    all_goals simp_all [supportedImportExtensions]

/-- C4, witness: the no-leading-dot law applied at the `left-pad`
import, and the unknown-extension law applied at `.zz`. -/
theorem c4_witness :
    jsStartsWith "left-pad" "." = false ∧
    extractImports "import x from \"y\"" ".zz" = [] :=
  ⟨c4_dependency_extraction.2.2.2.1 "import \x7b x \x7d from \"left-pad\"" ".ts"
      "left-pad" (by decide),
   c4_dependency_extraction.2.2.2.2 "import x from \"y\"" ".zz" (by decide)⟩

/-- The document-read oracle for a project with no key documents (it is
never consulted). -/
def c5ReadDoc : String → Option String := fun _ => none

/-- The conceptual-phase findings of a run that found zero key
documents. -/
def c5Findings : String := processPhase1 c5ReadDoc "/proj" []

/-- A history holding exactly that conceptual record. -/
def c5History : List CodebaseAnalysis :=
  [⟨"/proj", "conceptual", c5Findings, true, "t"⟩]

/-- C5: on a zero-key-document run, the rendered conceptual text says
`**Key Documents Found:** 0` — the bold markers break the substring
`Key Documents Found: 0` that `generateComprehensiveReport` scans for,
so `hasKeyDocs` evaluates **true** and the report claims
"Well Documented" instead of needing improvement.  The claim (and the
scan's evident intent) say the opposite; this is the code bug. -/
theorem c5_doc_quality_scan :
    jsIncludes c5Findings "Key Documents Found: 0" = false ∧
    jsIncludes c5Findings "**Key Documents Found:** 0" = true ∧
    jsIncludes c5Findings "Key Documents Found:" = true ∧
    compReportHasKeyDocs c5History = true ∧
    compReportDocQualityLine c5History =
      "**Documentation Quality:** Well Documented ✅\n" := by
  decide

/-- C6: after per-run aggregation, the dependency, entry-point,
idiom/pattern and architecture lists are duplicate-free (set
semantics), while the CodeElement list is the raw concatenation across
files — every element occurs exactly as often as in the per-file
extractions summed, so equal elements from two files (or two matches in
one file) all survive. -/
theorem c6_dedup_asymmetry (w : World) (projectPath : String) :
    (analyzeCodeFiles w projectPath).dependencies.Nodup ∧
    (analyzeCodeFiles w projectPath).entryPoints.Nodup ∧
    (analyzeCodeFiles w projectPath).patterns.Nodup ∧
    (analyzeCodeFiles w projectPath).architecture.Nodup ∧
    (∀ e : CodeElement,
      (analyzeCodeFiles w projectPath).functionsAndClasses.count e =
      ((w.codeFiles projectPath).map (fun fp =>
        (extractCodeElements (w.readFile fp) (pathRelative projectPath fp)).count e)).sum) := by
  refine ⟨dedupFirst_nodup _, dedupFirst_nodup _, dedupFirst_nodup _, dedupFirst_nodup _, ?_⟩
  intro e
  have h2 := (analyzeFold_fields w projectPath (w.codeFiles projectPath)
    ⟨[], [], [], emptyCodeStructure, [], [], []⟩).2
  show ((w.codeFiles projectPath).foldl (analyzeCodeFilesStep w projectPath)
    ⟨[], [], [], emptyCodeStructure, [], [], []⟩).functionsAndClasses.count e = _
  rw [h2, List.nil_append, count_flatMap]

/-- C10: the aggregated dependency list never contains an entry
starting with a dot — relative imports are filtered out at extraction —
so the internal-imports partition of the Analysis-phase renderer is
empty and its "Internal Imports" sub-block renders as the empty string,
for every input. -/
theorem c10_no_internal_imports (w : World) (projectPath : String) :
    (analyzeCodeFiles w projectPath).dependencies.filter
      (fun dep => jsStartsWith dep ".") = [] ∧
    phase3InternalSub ((analyzeCodeFiles w projectPath).dependencies.filter
      (fun dep => jsStartsWith dep ".")) = "" := by
  have hmem : ∀ dep ∈ (analyzeCodeFiles w projectPath).dependencies,
      jsStartsWith dep "." = false := by
    intro dep hdep
    have hdep2 : dep ∈ ((w.codeFiles projectPath).foldl
        (analyzeCodeFilesStep w projectPath)
        ⟨[], [], [], emptyCodeStructure, [], [], []⟩).dependencies :=
      dedupFirst_subset _ hdep
    rw [(analyzeFold_fields w projectPath (w.codeFiles projectPath) _).1] at hdep2
    simp only [List.nil_append, List.mem_flatMap] at hdep2
    obtain ⟨fp, _, hin⟩ := hdep2
    have hp := List.of_mem_filter hin
    have hand := (Bool.and_eq_true _ _).mp hp
    simpa using hand.2
  have h1 : (analyzeCodeFiles w projectPath).dependencies.filter
      (fun dep => jsStartsWith dep ".") = [] := by
    rw [List.filter_eq_nil_iff]
    intro a ha
    simp [hmem a ha]
  exact ⟨h1, by rw [h1]; rfl⟩

/-- C9: the Synthesis renderer and the comprehensive-report renderer
return non-empty text on an empty History (both are total functions in
this embedding — nothing throws), and the Synthesis text depends only
on the History length and the phases of its last three entries (plus
the project path). -/
theorem c9_synthesis_total :
    (∀ projectPath : String, processPhase4 projectPath [] ≠ "") ∧
    (∀ projectPath allPhaseFindings today : String,
      generateComprehensiveReport projectPath allPhaseFindings [] today ≠ "") ∧
    (∀ (projectPath : String) (h1 h2 : List CodebaseAnalysis),
      h1.length = h2.length →
      (jsSliceLast 3 h1).map (fun a => a.phase) =
        (jsSliceLast 3 h2).map (fun a => a.phase) →
      processPhase4 projectPath h1 = processPhase4 projectPath h2) := by
  refine ⟨?_, ?_, ?_⟩
  · intro p
    exact append_ne_empty_right _ _ (by decide)
  · intro p s t
    exact append_ne_empty_right _ _ (by decide)
  · intro p h1 h2 hlen hph
    unfold processPhase4
    rw [hlen]
    have e : ∀ l : List CodebaseAnalysis,
        (jsSliceLast 3 l).map (fun a =>
          "- **" ++ jsCapitalize a.phase ++ " Phase**: Completed successfully\n") =
        ((jsSliceLast 3 l).map (fun a => a.phase)).map (fun ph =>
          "- **" ++ jsCapitalize ph ++ " Phase**: Completed successfully\n") := by
      intro l
      rw [List.map_map]
      rfl
    rw [e h1, e h2, hph]

/-- A history record for the C9 witness. -/
def c9RecA : CodebaseAnalysis := ⟨"/p", "conceptual", "findings A", true, "t1"⟩

/-- A record agreeing with `c9RecA` only on the phase. -/
def c9RecB : CodebaseAnalysis := ⟨"/q", "conceptual", "other findings", false, "t2"⟩

/-- C9, witness: two single-entry histories with equal length and equal
last-three phases render identically, and the empty-history Synthesis
text is non-empty. -/
theorem c9_witness :
    processPhase4 "/p" [c9RecA] = processPhase4 "/p" [c9RecB] ∧
    processPhase4 "/p" [] ≠ "" :=
  ⟨c9_synthesis_total.2.2 "/p" [c9RecA] [c9RecB] rfl (by decide),
   c9_synthesis_total.1 "/p"⟩

/-- C8: the missing/empty/nonexistent-`projectPath` failure is a
synchronous throw inside the `try`, so the `catch` converts it into the
structured `{error, status: "failed"}` payload with the error flag set
and the history unchanged — that half of the claim holds.  But an
unrecognized phase string does **not** become an envelope: the `try`
block does `return this.runSinglePhase(...)` without `await`, so the
`Invalid phase: ...` rejection bypasses the `catch` and
`processCodebaseAnalysis` itself rejects (an uncaught failure at the
boundary), refuting the claim's "never into an uncaught exception".
The history still gains no record on either failure path. -/
theorem c8_error_envelopes :
    (∀ (w : World) (hist : List CodebaseAnalysis) (input : NavInput),
      (input.projectPath = none ∨ input.projectPath = some "" ∨
        (∃ p, input.projectPath = some p ∧ w.existsSync p = false)) →
      processCodebaseAnalysis w hist input =
        (.ok ⟨.failure "Invalid or non-existent project path" "failed", true⟩, hist)) ∧
    (∀ (w : World) (hist : List CodebaseAnalysis) (input : NavInput) (p ph : String),
      input.projectPath = some p → p ≠ "" → w.existsSync p = true →
      input.phase = some ph → ph ≠ "" →
      ph ∉ (["conceptual", "structural", "analysis", "synthesis", "all"] : List String) →
      processCodebaseAnalysis w hist input =
        (.error ("Invalid phase: " ++ ph), hist)) := by
  constructor
  · intro w hist input hbad
    obtain ⟨pp, phh⟩ := input
    rcases hbad with h | h | ⟨p, hp, hex⟩
    · simp only at h
      subst h
      rfl
    · simp only at h
      subst h
      rfl
    · simp only at hp
      subst hp
      simp [processCodebaseAnalysis, processAnalysisCore, hex]
  · intro w hist input p ph hp hpne hex hph hphne hnot
    obtain ⟨pp, phh⟩ := input
    simp only at hp hph
    subst hp
    subst hph
    have hc1 : ph ≠ "conceptual" := fun h => hnot (by simp [h])
    have hc2 : ph ≠ "structural" := fun h => hnot (by simp [h])
    have hc3 : ph ≠ "analysis" := fun h => hnot (by simp [h])
    have hc4 : ph ≠ "synthesis" := fun h => hnot (by simp [h])
    have hc5 : ph ≠ "all" := fun h => hnot (by simp [h])
    simp [processCodebaseAnalysis, processAnalysisCore, runSinglePhase,
      hex, hpne, hphne, hc1, hc2, hc3, hc4, hc5]

/-- A world in which no path exists. -/
def c8WorldDead : World :=
  ⟨fun _ => false, fun p => p, fun _ => [], fun _ => "", fun _ => [],
   fun _ => "", fun _ => none, "t", "d"⟩

/-- A world in which every path exists and all oracles are inert. -/
def c8WorldLive : World :=
  ⟨fun _ => true, fun p => p, fun _ => [], fun _ => "", fun _ => [],
   fun _ => "", fun _ => none, "t", "d"⟩

/-- C8, witness: at concrete inputs — a nonexistent path yields the
caught failure envelope; the unrecognized phase "bogus" yields an
escaped rejection, not an envelope; the history is untouched in both. -/
theorem c8_witness :
    processCodebaseAnalysis c8WorldDead [] ⟨some "/x", none⟩ =
      (.ok ⟨.failure "Invalid or non-existent project path" "failed", true⟩, []) ∧
    processCodebaseAnalysis c8WorldLive [] ⟨some "/x", some "bogus"⟩ =
      (.error ("Invalid phase: " ++ "bogus"), []) :=
  ⟨c8_error_envelopes.1 c8WorldDead [] ⟨some "/x", none⟩
      (Or.inr (Or.inr ⟨"/x", rfl, rfl⟩)),
   c8_error_envelopes.2 c8WorldLive [] ⟨some "/x", some "bogus"⟩ "/x" "bogus"
      rfl (by decide) rfl rfl (by decide) (by decide)⟩

/-- C6, witness: the de-duplication guarantee applied at a concrete
world and path. -/
theorem c6_witness : (analyzeCodeFiles c8WorldLive "/x").dependencies.Nodup :=
  (c6_dedup_asymmetry c8WorldLive "/x").1

/-- C10, witness: the empty internal-imports partition at a concrete
world and path. -/
theorem c10_witness :
    (analyzeCodeFiles c8WorldLive "/x").dependencies.filter
      (fun dep => jsStartsWith dep ".") = [] :=
  (c10_no_internal_imports c8WorldLive "/x").1

example : findKeyDocs ["proj"] [nestDirs 10 (FsEntry.file "readme.md")] =
    [["proj", "d", "d", "d", "d", "d", "d", "d", "d", "d", "d", "readme.md"]] := by
  decide

example : extractImports "from os import path\nimport sys\nfrom . import x" ".py" =
    ["os", "sys"] := by decide

example : extractImports "import (\n  \"fmt\"\n  \"net/http\"\n)" ".go" =
    ["fmt", "net/http"] := by decide

example : extractImports "use std::io;\nuse serde::\x7bSerialize\x7d;" ".rs" =
    ["std::io", "serde"] := by decide

example :
    (extractCodeElements "class Foo \x7b\n  bar() \x7b\n    return 1\n  \x7d\n\x7d" "a.ts").map
      (fun e => (e.type, e.name, e.methods)) =
    [("class", "Foo", some ["bar"])] := by decide

example : isEntryPoint "" "src/index.js" = true := by decide
example : isEntryPoint "int main(void)" "foo.c" = true := by decide
example : isEntryPoint "nothing here" "foo.c" = false := by decide

/-- A one-file Express project world, for exercising the full pipeline
end to end. -/
def smokeWorld : World :=
  ⟨fun _ => true, fun p => p, fun _ => [], fun _ => "src/\npackage.json",
   fun _ => ["/proj/src/index.js"],
   fun _ => "const express = require(\"express\")\napp.get(\"/\")",
   fun _ => none, "t", "2026-10-11"⟩

set_option maxRecDepth 10000 in
example :
    ((processCodebaseAnalysis smokeWorld [] ⟨some "/proj", none⟩).2).map
      (fun a => a.phase) = ["conceptual", "structural", "analysis", "synthesis"] := by
  decide

set_option maxRecDepth 10000 in
example : (analyzeCodeFiles smokeWorld "/proj").dependencies = ["express"] := by decide

set_option maxRecDepth 10000 in
example : (analyzeCodeFiles smokeWorld "/proj").entryPoints = ["src/index.js"] := by decide
